import Mathlib

/-!
# Verification of the moemail asynchronous batch-provisioning core

Shallow embedding of the batch task subsystem of the moemail repository:
* `src/app/api/emails/batch/create/route.ts`  (task creation, `createBatch`)
* `src/app/api/emails/batch/process/route.ts` (chunk processor, `advance`)
* the batch status `GET` route (`src/unnamed/part_000`)
* the batch download `GET` route (embedded after the separator in
  `src/app/components/profile/batch-history-panel.tsx`, the variant with the
  permanent-table fallback)

JavaScript strings are modelled as `List Char` (`Str`); timestamps
(`Date.now()`, `Date` columns) as natural numbers of milliseconds; the
Cloudflare KV entry `batch_task:<taskId>` for the one task under scrutiny as an
`Option BatchTask`; the `emails` table as a list of rows in insertion order;
and the permanent `batch_tasks` row for that task as an `Option BatchRecord`.
Randomness (`nanoid(8)`) is an oracle `gen : Nat → Str` giving the local part
drawn at the k-th generation attempt of a call.  Fallible storage operations
are driven by an explicit fault-injection record `Faults`; `noFaults` is the
error-free run.  JavaScript counters are modelled as `Nat`: the source only
ever adds non-negative quantities to them, and the only subtraction
(`totalCount - processedCount`) is guarded in context by
`processedCount < totalCount`.
-/

namespace Moemail

/-- A JavaScript string, as its list of characters. -/
abbrev Str := List Char

/-- `status` field of a batch task (`"pending" | "processing" | "completed" | "failed"`). -/
inductive TaskStatus
  | pending
  | processing
  | completed
  | failed
deriving DecidableEq, Repr

/-- The `BatchTask` interface stored in KV under `batch_task:<taskId>`
(process route, lines 10–23). -/
structure BatchTask where
  taskId : Str
  userId : Str
  domain : Str
  expiryTime : Nat
  totalCount : Nat
  processedCount : Nat
  createdCount : Nat
  status : TaskStatus
  error : Option Str := none
  createdAt : Nat
  updatedAt : Nat
  emailList : Option (List Str) := none
deriving DecidableEq, Repr

/-- A row of the `emails` table (the fields the batch routes read or write). -/
structure Email where
  address : Str
  userId : Str
  createdAt : Nat
  expiresAt : Nat
deriving DecidableEq, Repr

/-- A row of the permanent `batch_tasks` table. -/
structure BatchRecord where
  id : Str
  userId : Str
  domain : Str
  totalCount : Nat
  createdCount : Nat
  status : TaskStatus
  error : Option Str := none
  createdAt : Nat
  completedAt : Option Nat := none
deriving DecidableEq, Repr

/-- The storage visible to the batch routes, restricted to one task id:
the ephemeral KV entry, the `emails` table, and the permanent record row. -/
structure World where
  kv : Option BatchTask
  emailsTable : List Email
  record : Option BatchRecord
deriving DecidableEq, Repr

/-- `PROCESS_BATCH_SIZE` (process route, line 26). -/
def PROCESS_BATCH_SIZE : Nat := 100

/-- `INSERT_BATCH_SIZE` (process route, line 152). -/
def INSERT_BATCH_SIZE : Nat := 20

/-- `ASYNC_THRESHOLD` (create route, line 30). -/
def ASYNC_THRESHOLD : Nat := 50

/-- `String.prototype.toLowerCase`. -/
def strToLower (s : Str) : Str := s.map Char.toLower

/-- `String.prototype.split(',')` (create route, line 64). -/
def splitComma : Str → List Str
  | [] => [[]]
  | c :: rest =>
    if c = ',' then [] :: splitComma rest
    else
      match splitComma rest with
      | h :: t => (c :: h) :: t
      | [] => [[c]]

/-- Template literal `` `${localPart}@${domain}` ``. -/
def mkAddress (localPart domain : Str) : Str := localPart ++ '@' :: domain

/-- `Math.round((p / total) * 100)` for non-negative integer inputs:
round-half-up of `100 * p / total`. -/
def roundPct (p total : Nat) : Nat := (200 * p + total) / (2 * total)

/-- `new Date('9999-01-01T00:00:00.000Z')` in milliseconds since the epoch. -/
def FOREVER_MS : Nat := 253370764800000

/-- `task.expiryTime === 0 ? <9999-01-01> : now + task.expiryTime` (lines 114–116). -/
def expiresOf (nowMs expiryTime : Nat) : Nat :=
  if expiryTime = 0 then FOREVER_MS else nowMs + expiryTime

/-- `"任务已完成"`. -/
def msgTaskCompleted : Str := "任务已完成".toList

/-- `"任务已失败"`. -/
def msgTaskFailed : Str := "任务已失败".toList

/-- `"邮箱插入失败: "`, the prefix wrapped around an insert error (line 171). -/
def insertFailPrefix : Str := "邮箱插入失败: ".toList

/-- The JSON body of a successful process-route response. -/
structure Snapshot where
  status : TaskStatus
  processed : Nat
  total : Nat
  created : Nat
  progress : Nat
  hasMore : Option Bool := none
  message : Option Str := none
  error : Option Str := none
deriving DecidableEq, Repr

/-- Outcome of `POST /api/emails/batch/process`. -/
inductive ProcessResult
  | success (snap : Snapshot)
  | notFound
  | serverError
deriving DecidableEq, Repr

/-- Fault injection for the fallible storage operations of one `advance` call.
Each `Option Str` is "this operation throws, with this error message". -/
structure Faults where
  /-- The initial KV task load (line 44, inside the `try`) throws.  The catch
  handler then re-reads the stored task (line 272) and, when that re-read
  succeeds, re-writes it as failed whatever its status — terminal statuses
  included.  (A throwing recovery re-read is observationally the
  `failRecoveryPut` case: nothing gets written.) -/
  failLoad : Option Str := none
  /-- The KV put recording `pending → processing` (line 86) throws. -/
  failFirstPut : Option Str := none
  /-- A per-candidate `findFirst` lookup during generation (line 130) throws. -/
  failGenQuery : Option Str := none
  /-- `db.insert` throws after `k` sub-batches of 20 were inserted (line 161);
  the raised message is wrapped with `insertFailPrefix` (line 171). -/
  failInsertAfterChunks : Option (Nat × Str) := none
  /-- The completion-time permanent-record upsert throws (caught at line 228). -/
  failRecordWrite : Bool := false
  /-- The final KV put (line 245) throws. -/
  failFinalPut : Option Str := none
  /-- The recovery KV put in the catch handler (line 278) throws. -/
  failRecoveryPut : Bool := false
  /-- The recovery permanent-record upsert (caught at line 313) throws. -/
  failRecoveryRecord : Bool := false
deriving DecidableEq, Repr

/-- The error-free run. -/
def noFaults : Faults := {}

/-- The candidate-generation loop (process route, lines 108–142), by fuel on
the attempt budget.  State: attempts consumed so far `k` (also the index into
the randomness oracle), accepted addresses in order, and the in-memory
`addressSet` of lower-cased candidates.  Returns the accepted list, the final
set, and the attempts consumed. -/
def genLoop (gen : Nat → Str) (domain : Str) (dbLower : List Str) (toProcess : Nat) :
    Nat → Nat → List Str → List Str → List Str × List Str × Nat
  | 0, k, accepted, seen => (accepted, seen, k)
  | fuel + 1, k, accepted, seen =>
    if accepted.length < toProcess then
      let address := mkAddress (gen k) domain
      let lower := strToLower address
      if lower ∈ seen then
        genLoop gen domain dbLower toProcess fuel (k + 1) accepted seen
      else
        let seen' := seen ++ [lower]
        if lower ∈ dbLower then
          genLoop gen domain dbLower toProcess fuel (k + 1) accepted seen'
        else
          genLoop gen domain dbLower toProcess fuel (k + 1) (accepted ++ [address]) seen'
    else
      (accepted, seen, k)

/-- The lower-cased view of the `emails` table that the per-candidate
`findFirst` on `LOWER(emails.address)` checks against (line 131). -/
def dbLower (db : List Email) : List Str := db.map fun e => strToLower e.address

/-- `toProcess = Math.min(PROCESS_BATCH_SIZE, totalCount - processedCount)`
(lines 104–105). -/
def toProcessOf (task : BatchTask) : Nat :=
  min PROCESS_BATCH_SIZE (task.totalCount - task.processedCount)

/-- The accepted candidate list produced by the generation loop of one call. -/
def acceptedOf (db : List Email) (task : BatchTask) (gen : Nat → Str) : List Str :=
  (genLoop gen task.domain (dbLower db) (toProcessOf task) (toProcessOf task * 5) 0 [] []).1

/-- `emailDataList` row built for an accepted address (lines 135–140). -/
def mkRow (task : BatchTask) (nowMs : Nat) (address : Str) : Email :=
  { address := address
    userId := task.userId
    createdAt := nowMs
    expiresAt := expiresOf nowMs task.expiryTime }

/-- Split a list into chunks of `n` (`emailDataList.slice(i, i + n)` steps of
the insert loop), by fuel. -/
def chunksOf (n : Nat) : Nat → List α → List (List α)
  | 0, _ => []
  | _, [] => []
  | fuel + 1, l => l.take n :: chunksOf n fuel (l.drop n)

/-- The sub-batches of the insert loop (lines 159–167), `INSERT_BATCH_SIZE = 20`. -/
def chunks20 (l : List α) : List (List α) := chunksOf INSERT_BATCH_SIZE l.length l

/-- Result of the insert phase: either all rows inserted (with the `created`
count and collected addresses), or an insert threw after a prefix of the
sub-batches was persisted. -/
inductive InsertOutcome
  | ok (db : List Email) (created : Nat) (createdAddresses : List Str)
  | err (db : List Email) (msg : Str)
deriving DecidableEq, Repr

/-- The batched-insert phase (lines 151–173).  Skipped entirely when there is
nothing to insert (line 157). -/
def insertPhase (db : List Email) (rows : List Email) (f : Faults) : InsertOutcome :=
  if rows.isEmpty then .ok db 0 []
  else
    match f.failInsertAfterChunks with
    | some (k, m) => .err (db ++ ((chunks20 rows).take k).flatten) (insertFailPrefix ++ m)
    | none =>
        let cs := chunks20 rows
        .ok (db ++ cs.flatten) (cs.map List.length).sum (cs.flatten.map (·.address))

/-- The permanent-record upsert of the catch handler (lines 287–312),
applied to the reloaded task `t` already marked failed. -/
def upsertFailedRecord (rec : Option BatchRecord) (t : BatchTask) (nowMs : Nat) : BatchRecord :=
  match rec with
  | some r =>
      { r with createdCount := t.createdCount, status := .failed, error := t.error,
               completedAt := some nowMs }
  | none =>
      { id := t.taskId, userId := t.userId, domain := t.domain, totalCount := t.totalCount,
        createdCount := t.createdCount, status := .failed, error := t.error,
        createdAt := t.createdAt, completedAt := some nowMs }

/-- The completion-time permanent-record upsert (lines 202–227). -/
def upsertCompletedRecord (rec : Option BatchRecord) (t : BatchTask) (nowMs : Nat) : BatchRecord :=
  match rec with
  | some r =>
      { r with createdCount := t.createdCount, status := .completed, completedAt := some nowMs }
  | none =>
      { id := t.taskId, userId := t.userId, domain := t.domain, totalCount := t.totalCount,
        createdCount := t.createdCount, status := .completed, error := none,
        createdAt := t.createdAt, completedAt := some nowMs }

/-- The catch handler of the process route (lines 262–320): reload the stored
task, mark it failed with the captured message, put it back to KV, and
best-effort upsert the permanent record.  A failing recovery write is only
logged.  Returns the resulting world and the list of successful KV puts. -/
def recover (w : World) (errMsg : Str) (f : Faults) (nowMs : Nat) : World × List BatchTask :=
  match w.kv with
  | none => (w, [])
  | some t =>
    if f.failRecoveryPut then (w, [])
    else
      let t' := { t with status := .failed, error := some errMsg, updatedAt := nowMs }
      let w1 : World := { w with kv := some t' }
      if f.failRecoveryRecord then (w1, [t'])
      else ({ w1 with record := some (upsertFailedRecord w1.record t' nowMs) }, [t'])

/-- Response of the early return for a completed task (lines 55–64). -/
def completedSnap (t : BatchTask) : Snapshot :=
  { status := .completed, processed := t.processedCount, total := t.totalCount,
    created := t.createdCount, progress := 100, message := some msgTaskCompleted }

/-- Response of the early return for a failed task (lines 66–75). -/
def failedSnap (t : BatchTask) : Snapshot :=
  { status := .failed, processed := t.processedCount, total := t.totalCount,
    created := t.createdCount, progress := roundPct t.processedCount t.totalCount,
    error := t.error }

/-- Response of the residual `else` branch (lines 91–101), reached by a
`processing` task whose `processedCount` already reached `totalCount`. -/
def staleSnap (t : BatchTask) : Snapshot :=
  { status := t.status, processed := t.processedCount, total := t.totalCount,
    created := t.createdCount, progress := roundPct t.processedCount t.totalCount,
    message := some (if t.status = .completed then msgTaskCompleted else msgTaskFailed) }

/-- The final success response (lines 254–261). -/
def finalSnap (t : BatchTask) : Snapshot :=
  { status := t.status, processed := t.processedCount, total := t.totalCount,
    created := t.createdCount, progress := roundPct t.processedCount t.totalCount,
    hasMore := some (decide (t.processedCount < t.totalCount)) }

/-- Outcome of one `advance` call: HTTP result, resulting storage, and the
sequence of successful KV puts of the task, in order. -/
structure AdvOut where
  res : ProcessResult
  world : World
  writes : List BatchTask
deriving DecidableEq, Repr

/-- The generation / insert / progress-update body of the process route
(lines 103–261), entered with the in-memory `task` in non-terminal state.
`writes0` carries the KV put already performed by the `pending → processing`
transition, if any. -/
def advanceBody (w : World) (task : BatchTask) (gen : Nat → Str) (f : Faults) (nowMs : Nat)
    (writes0 : List BatchTask) : AdvOut :=
  match f.failGenQuery with
  | some m =>
      let r := recover w m f nowMs
      ⟨.serverError, r.1, writes0 ++ r.2⟩
  | none =>
    let accepted := acceptedOf w.emailsTable task gen
    let rows := accepted.map (mkRow task nowMs)
    match insertPhase w.emailsTable rows f with
    | .err db' m =>
        let r := recover { w with emailsTable := db' } m f nowMs
        ⟨.serverError, r.1, writes0 ++ r.2⟩
    | .ok db' created createdAddresses =>
        let t1 : BatchTask :=
          { task with
            processedCount := task.processedCount + accepted.length,
            createdCount := task.createdCount + created,
            updatedAt := nowMs,
            emailList := if createdAddresses.isEmpty then task.emailList
                         else some (task.emailList.getD [] ++ createdAddresses) }
        let t2 := if t1.totalCount < t1.processedCount then
                    { t1 with processedCount := t1.totalCount } else t1
        if t2.totalCount ≤ t2.processedCount then
          let t3 := { t2 with processedCount := t2.totalCount, status := .completed }
          let rec3 := if f.failRecordWrite then w.record
                      else some (upsertCompletedRecord w.record t3 nowMs)
          let w2 : World := { kv := w.kv, emailsTable := db', record := rec3 }
          match f.failFinalPut with
          | some m =>
              let r := recover w2 m f nowMs
              ⟨.serverError, r.1, writes0 ++ r.2⟩
          | none => ⟨.success (finalSnap t3), { w2 with kv := some t3 }, writes0 ++ [t3]⟩
        else
          let w2 : World := { kv := w.kv, emailsTable := db', record := w.record }
          match f.failFinalPut with
          | some m =>
              let r := recover w2 m f nowMs
              ⟨.serverError, r.1, writes0 ++ r.2⟩
          | none => ⟨.success (finalSnap t2), { w2 with kv := some t2 }, writes0 ++ [t2]⟩

/-- `POST /api/emails/batch/process?taskId=ID` (process route, lines 28–327),
for the task id the `World` is keyed on. -/
def advance (w : World) (gen : Nat → Str) (f : Faults) (nowMs : Nat) : AdvOut :=
  match f.failLoad with
  | some m =>
      let r := recover w m f nowMs
      ⟨.serverError, r.1, r.2⟩
  | none =>
  match w.kv with
  | none => ⟨.notFound, w, []⟩
  | some task =>
    if task.status = .completed then ⟨.success (completedSnap task), w, []⟩
    else if task.status = .failed then ⟨.success (failedSnap task), w, []⟩
    else if task.status = .processing ∧ task.processedCount < task.totalCount then
      advanceBody w task gen f nowMs []
    else if task.status = .pending then
      let t1 := { task with status := .processing, updatedAt := nowMs }
      match f.failFirstPut with
      | some m =>
          let r := recover w m f nowMs
          ⟨.serverError, r.1, r.2⟩
      | none => advanceBody { w with kv := some t1 } t1 gen f nowMs [t1]
    else
      ⟨.success (staleSnap task), w, []⟩

/-- The process route handler as it faces an HTTP requester: the route never
calls `getUserId` and never reads any session or owner information, so its
behaviour is the same `advance` for every requester (including none). -/
def processPOSTAsUser (_requester : Option Str) (w : World) (gen : Nat → Str)
    (f : Faults) (nowMs : Nat) : AdvOut :=
  advance w gen f nowMs

/-- Outcome of `GET /api/emails/batch/status/[taskId]` (src/unnamed/part_000). -/
inductive StatusResult
  | unauthorized
  | notFound
  | forbidden
  | ok (taskId : Str) (status : TaskStatus) (totalCount processedCount createdCount : Nat)
      (progress : Nat) (error : Option Str) (createdAt updatedAt : Nat)
deriving DecidableEq, Repr

/-- The batch status route (src/unnamed/part_000, lines 21–74). -/
def statusGET (requester : Option Str) (w : World) : StatusResult :=
  match requester with
  | none => .unauthorized
  | some uid =>
    match w.kv with
    | none => .notFound
    | some t =>
      if t.userId ≠ uid then .forbidden
      else
        .ok t.taskId t.status t.totalCount t.processedCount t.createdCount
          (roundPct t.processedCount t.totalCount) t.error t.createdAt t.updatedAt

/-- Outcome of `GET /api/emails/batch/download/[taskId]`. -/
inductive DownloadResult
  | unauthorized
  | notFound
  | forbidden
  /-- 400 `"任务尚未完成"`. -/
  | notCompleted
  /-- 400 `"没有可下载的邮箱地址"`. -/
  | emptyList
  /-- 200 `text/plain` attachment with the given body. -/
  | file (content : Str)
deriving DecidableEq, Repr

/-- The permanent-table reconstruction of an expired task's address list
(batch-history-panel download route, lines 366–384): the owner's addresses
created at or after the task, first `totalCount * 2` of them, filtered to the
task's domain suffix, truncated to `createdCount`. -/
def reconstructList (w : World) (uid : Str) (r : BatchRecord) : List Str :=
  let q := (w.emailsTable.filter
      (fun e => decide (e.userId = uid ∧ r.createdAt ≤ e.createdAt))).take (r.totalCount * 2)
  ((q.filter (fun e => List.isSuffixOf ('@' :: r.domain) e.address)).take r.createdCount).map
    (·.address)

/-- The batch download route (batch-history-panel file, lines 295–419): prefer
the ephemeral KV task (exact `emailList`), falling back to the permanent
record plus reconstruction once the KV copy has expired. -/
def downloadGET (requester : Option Str) (w : World) : DownloadResult :=
  match requester with
  | none => .unauthorized
  | some uid =>
    match w.kv with
    | some t =>
      if t.userId ≠ uid then .forbidden
      else if t.status ≠ .completed then .notCompleted
      else
        let l := t.emailList.getD []
        if l.isEmpty then .emptyList else .file (List.intercalate ['\n'] l)
    | none =>
      match w.record with
      | none => .notFound
      | some r =>
        if r.userId ≠ uid then .forbidden
        else if r.status ≠ .completed then .notCompleted
        else
          let l := reconstructList w uid r
          if l.isEmpty then .emptyList else .file (List.intercalate ['\n'] l)

/-- `ROLES.EMPEROR`.  Modelled from the spec: the role constants live in
`src/lib/permissions.ts`, which is not part of the provided sources; the spec
says only that "a privileged role is exempt" from the quota check. -/
def EMPEROR : Str := "emperor".toList

/-- Body of `POST /api/emails/batch/create`. -/
structure CreateReq where
  expiryTime : Nat
  domain : Str
  batch : Option Nat := none
deriving DecidableEq, Repr

/-- Outcome of `POST /api/emails/batch/create`. -/
inductive CreateResult
  | unauthorized
  /-- 400 `"无效的过期时间"`. -/
  | invalidExpiry
  /-- 400 `"无效的域名"`. -/
  | invalidDomain
  /-- 403 quota message listing current, max and attempted counts. -/
  | quotaExceeded (current maxCount attempted : Nat)
  /-- 400 `"请使用 /api/emails/generate 接口进行小批量创建（≤50）"`. -/
  | useSyncPath
  /-- 200 `{taskId, status: "pending"}`. -/
  | created (taskId : Str)
deriving DecidableEq, Repr

/-- `POST /api/emails/batch/create` (create route, lines 32–161).
`expiryOptions` stands for the values of `EXPIRY_OPTIONS` (defined in
`src/types/email.ts`, not among the provided sources; modelled from the spec
as the allow-list of durations with 0 the "never expires" sentinel).
`emailDomains` is the KV value of `EMAIL_DOMAINS`; `maxCount` the resolved
`MAX_EMAILS` ceiling; `role` the requester's role; `newTaskId` the
`nanoid(16)` drawn for the task. -/
def createBatch (requester : Option Str) (role : Str) (expiryOptions : List Nat)
    (emailDomains : Option Str) (maxCount : Nat) (req : CreateReq) (w : World)
    (newTaskId : Str) (nowMs : Nat) : CreateResult × World :=
  match requester with
  | none => (.unauthorized, w)
  | some uid =>
    let batchCount := req.batch.getD 1
    if req.expiryTime ∉ expiryOptions then (.invalidExpiry, w)
    else
      let domains := match emailDomains with
        | some s => splitComma s
        | none => ["moemail.app".toList]
      if req.domain ∉ domains then (.invalidDomain, w)
      else
        let quota : Option (Nat × Nat) :=
          if role ≠ EMPEROR then
            let currentCount := (w.emailsTable.filter
              (fun e => decide (e.userId = uid ∧ nowMs < e.expiresAt))).length
            if maxCount < currentCount + batchCount then some (currentCount, maxCount) else none
          else none
        match quota with
        | some (c, m) => (.quotaExceeded c m batchCount, w)
        | none =>
          if ASYNC_THRESHOLD < batchCount then
            let task : BatchTask :=
              { taskId := newTaskId, userId := uid, domain := req.domain,
                expiryTime := req.expiryTime, totalCount := batchCount,
                processedCount := 0, createdCount := 0, status := .pending,
                createdAt := nowMs, updatedAt := nowMs }
            (.created newTaskId, { w with kv := some task })
          else (.useSyncPath, w)

/-- Inputs of one `advance` invocation in a sequence of calls. -/
structure CallInput where
  gen : Nat → Str
  faults : Faults
  nowMs : Nat

/-- Run a sequence of `advance` calls, collecting every successful KV put in
order. -/
def runCalls (w : World) : List CallInput → World × List BatchTask
  | [] => (w, [])
  | c :: cs =>
    let o := advance w c.gen c.faults c.nowMs
    let r := runCalls o.world cs
    (r.1, o.writes ++ r.2)

/-- Adjacency check of a status trace under a given allowed-transition
relation. -/
def chainOK (step : TaskStatus → TaskStatus → Bool) : List TaskStatus → Bool
  | [] => true
  | [_] => true
  | a :: b :: rest => step a b && chainOK step (b :: rest)

/-- The transition relation asserted by the spec (`pending → processing →
{completed, failed}`, plus staying in place). -/
def specStep (a b : TaskStatus) : Bool :=
  b = a
    || (a = .pending && b = .processing)
    || (a = .processing && (b = .completed || b = .failed))

/-- The transition relation the code actually guarantees: `specStep`, plus
the two hops taken by the catch handler — `pending → failed` when an
`advance` call fails before the `pending → processing` state is persisted,
and `completed → failed` when the initial task load throws and the recovery
re-write fires on an already-completed task. -/
def codeStep (a b : TaskStatus) : Bool :=
  specStep a b || (a = .pending && b = .failed) || (a = .completed && b = .failed)

/-- The task value written by the catch handler: the stored task marked
failed with the captured message (lines 274–277). -/
def failTask (t : BatchTask) (m : Str) (nowMs : Nat) : BatchTask :=
  { t with status := .failed, error := some m, updatedAt := nowMs }

/-- The task value written by the `pending → processing` transition
(lines 82–83). -/
def procTask (t : BatchTask) (nowMs : Nat) : BatchTask :=
  { t with status := .processing, updatedAt := nowMs }

/-- The updated task value persisted by a fault-free pass through the body of
the process route (lines 175–199), for an in-memory task `t` already in
`processing` state. -/
def successTask (db : List Email) (t : BatchTask) (gen : Nat → Str) (nowMs : Nat) : BatchTask :=
  let accepted := acceptedOf db t gen
  let t1 : BatchTask :=
    { t with
      processedCount := t.processedCount + accepted.length,
      createdCount := t.createdCount + accepted.length,
      updatedAt := nowMs,
      emailList := if accepted.isEmpty then t.emailList
                   else some (t.emailList.getD [] ++ accepted) }
  let t2 := if t1.totalCount < t1.processedCount then
              { t1 with processedCount := t1.totalCount } else t1
  if t2.totalCount ≤ t2.processedCount then
    { t2 with processedCount := t2.totalCount, status := .completed }
  else t2

/-- The two counter invariants of the data model (`processedCount ≤
totalCount`, `createdCount ≤ processedCount`; `0 ≤` is inherent to `Nat`,
matching the source where the counters start at 0 and only ever have
non-negative quantities added). -/
def counterInv (t : BatchTask) : Prop :=
  t.processedCount ≤ t.totalCount ∧ t.createdCount ≤ t.processedCount

/-- Invariant tying the accumulated `emailList` to `createdCount` and to the
task's domain: exactly `createdCount` stored addresses, each of the form
`<local>@<domain>`. -/
def emailListInv (t : BatchTask) : Prop :=
  (t.emailList.getD []).length = t.createdCount ∧
  ∀ a ∈ t.emailList.getD [], ∃ lp, a = lp ++ '@' :: t.domain

/-- Deterministic stand-in for the `nanoid(8)` randomness: the decimal digits
of `off + k` at the k-th draw.  Distinct draws give distinct, already
lower-case local parts, so no two candidates ever collide. -/
def genSeq (off : Nat) : Nat → Str := fun k => Nat.toDigits 10 (off + k)

/-- A constant randomness oracle: every draw yields the same local part. -/
def genConst : Nat → Str := fun _ => ['x']

/-- Concrete owner id used by the concrete scenarios. -/
def aliceId : Str := "alice".toList

/-- A concrete requester distinct from `aliceId`. -/
def bobId : Str := "bob".toList

/-- A freshly created pending task for 250 addresses on domain `d`,
owned by `aliceId` (the C6 scenario; `expiryTime = 0` is "never expires"). -/
def task250 : BatchTask :=
  { taskId := "t1".toList, userId := aliceId, domain := ['d'], expiryTime := 0,
    totalCount := 250, processedCount := 0, createdCount := 0, status := .pending,
    createdAt := 0, updatedAt := 0 }

/-- Initial storage for the 250-address scenario. -/
def w250 : World := { kv := some task250, emailsTable := [], record := none }

/-- A pending task for 60 addresses owned by `aliceId`. -/
def task60 : BatchTask :=
  { taskId := "t2".toList, userId := aliceId, domain := ['d'], expiryTime := 0,
    totalCount := 60, processedCount := 0, createdCount := 0, status := .pending,
    createdAt := 0, updatedAt := 0 }

/-- Storage holding the pending 60-address task. -/
def w60 : World := { kv := some task60, emailsTable := [], record := none }

/-- A mid-flight processing task owned by `aliceId` (3 of 250 done). -/
def taskMid : BatchTask :=
  { taskId := "t3".toList, userId := aliceId, domain := ['d'], expiryTime := 0,
    totalCount := 250, processedCount := 3, createdCount := 3, status := .processing,
    createdAt := 0, updatedAt := 1,
    emailList := some [['a', '@', 'd'], ['b', '@', 'd'], ['c', '@', 'd']] }

/-- Storage for `taskMid`; the address table already holds the one address
`x@d` that `genConst` keeps proposing, so every candidate collides. -/
def wMid : World :=
  { kv := some taskMid,
    emailsTable := [{ address := ['x', '@', 'd'], userId := aliceId,
                      createdAt := 0, expiresAt := 9 }],
    record := none }

/-- A completed task owned by `aliceId` with three created addresses. -/
def taskDone : BatchTask :=
  { taskId := "t4".toList, userId := aliceId, domain := ['d'], expiryTime := 0,
    totalCount := 3, processedCount := 3, createdCount := 3, status := .completed,
    createdAt := 0, updatedAt := 2,
    emailList := some [['a', '@', 'd'], ['b', '@', 'd'], ['c', '@', 'd']] }

/-- Storage holding the completed `taskDone`. -/
def wDone : World := { kv := some taskDone, emailsTable := [], record := none }

/-- Empty storage. -/
def wEmpty : World := { kv := none, emailsTable := [], record := none }

/-- A non-privileged role string (any value other than `EMPEROR`). -/
def dukeRole : Str := "duke".toList

/-- Whether a process-route outcome is an HTTP 200 snapshot. -/
def isSuccess : ProcessResult → Bool
  | .success _ => true
  | _ => false

/-- Storage right after `createBatch` accepted a 60-address batch from
`aliceId`: the returned world of that call. -/
def c1World : World :=
  (createBatch (some aliceId) dukeRole [0] (some ['d']) 1000
    { expiryTime := 0, domain := ['d'], batch := some 60 } wEmpty "tid1".toList 5).2

/-! ## Helper lemmas -/

/-- `Math.round(100 * T / T) = 100` for `T > 0`. -/
theorem roundPct_self (T : Nat) (h : 0 < T) : roundPct T T = 100 := by
  unfold roundPct
  have h2 : 200 * T + T = T + 2 * T * 100 := by ring
  rw [h2, Nat.add_mul_div_left _ _ (by omega : 0 < 2 * T), Nat.div_eq_of_lt (by omega)]

/-- Address of a generated row is the accepted address itself. -/
theorem mkRow_address (t : BatchTask) (now : Nat) (a : Str) : (mkRow t now a).address = a := rfl

/-- The accepted-candidate invariants of the generation loop: every accepted
address (i) has its lower-casing recorded in the returned `addressSet`,
(ii) is case-insensitively distinct from every other accepted address,
(iii) is case-insensitively absent from the store snapshot checked against,
(iv) is of the form `<draw>@<domain>`; moreover (v) at most `toProcess`
candidates are accepted and (vi) at most `fuel` further attempts are made. -/
theorem genLoop_inv (gen : Nat → Str) (domain : Str) (dbL : List Str) (toProcess : Nat) :
    ∀ fuel k accepted seen,
      (∀ a ∈ accepted, strToLower a ∈ seen) →
      List.Pairwise (fun a b => strToLower a ≠ strToLower b) accepted →
      (∀ a ∈ accepted, strToLower a ∉ dbL) →
      (∀ a ∈ accepted, ∃ j, a = mkAddress (gen j) domain) →
      accepted.length ≤ toProcess →
      (∀ a ∈ (genLoop gen domain dbL toProcess fuel k accepted seen).1,
          strToLower a ∈ (genLoop gen domain dbL toProcess fuel k accepted seen).2.1) ∧
      List.Pairwise (fun a b => strToLower a ≠ strToLower b)
          (genLoop gen domain dbL toProcess fuel k accepted seen).1 ∧
      (∀ a ∈ (genLoop gen domain dbL toProcess fuel k accepted seen).1,
          strToLower a ∉ dbL) ∧
      (∀ a ∈ (genLoop gen domain dbL toProcess fuel k accepted seen).1,
          ∃ j, a = mkAddress (gen j) domain) ∧
      (genLoop gen domain dbL toProcess fuel k accepted seen).1.length ≤ toProcess ∧
      (genLoop gen domain dbL toProcess fuel k accepted seen).2.2 ≤ k + fuel := by
  intro fuel
  induction fuel with
  | zero =>
    intro k accepted seen h1 h2 h3 h4 h5
    simpa [genLoop] using ⟨h1, h2, h3, h4, h5⟩
  | succ fuel ih =>
    intro k accepted seen h1 h2 h3 h4 h5
    by_cases hlen : accepted.length < toProcess
    · simp only [genLoop, if_pos hlen]
      by_cases hseen : strToLower (mkAddress (gen k) domain) ∈ seen
      · simp only [if_pos hseen]
        have := ih (k + 1) accepted seen h1 h2 h3 h4 h5
        exact ⟨this.1, this.2.1, this.2.2.1, this.2.2.2.1, this.2.2.2.2.1,
          le_trans this.2.2.2.2.2 (by omega)⟩
      · simp only [if_neg hseen]
        by_cases hdb : strToLower (mkAddress (gen k) domain) ∈ dbL
        · simp only [if_pos hdb]
          have := ih (k + 1) accepted (seen ++ [strToLower (mkAddress (gen k) domain)])
            (fun a ha => List.mem_append.mpr (Or.inl (h1 a ha))) h2 h3 h4 h5
          exact ⟨this.1, this.2.1, this.2.2.1, this.2.2.2.1, this.2.2.2.2.1,
            le_trans this.2.2.2.2.2 (by omega)⟩
        · simp only [if_neg hdb]
          have h1' : ∀ a ∈ accepted ++ [mkAddress (gen k) domain],
              strToLower a ∈ seen ++ [strToLower (mkAddress (gen k) domain)] := by
            intro a ha
            rcases List.mem_append.mp ha with ha | ha
            · exact List.mem_append.mpr (Or.inl (h1 a ha))
            · simp at ha
              subst ha
              simp
          have h2' : List.Pairwise (fun a b => strToLower a ≠ strToLower b)
              (accepted ++ [mkAddress (gen k) domain]) := by
            rw [List.pairwise_append]
            refine ⟨h2, List.pairwise_singleton _ _, ?_⟩
            intro a ha b hb
            simp at hb
            subst hb
            intro hEq
            exact hseen (hEq ▸ h1 a ha)
          have h3' : ∀ a ∈ accepted ++ [mkAddress (gen k) domain], strToLower a ∉ dbL := by
            intro a ha
            rcases List.mem_append.mp ha with ha | ha
            · exact h3 a ha
            · simp at ha
              subst ha
              exact hdb
          have h4' : ∀ a ∈ accepted ++ [mkAddress (gen k) domain],
              ∃ j, a = mkAddress (gen j) domain := by
            intro a ha
            rcases List.mem_append.mp ha with ha | ha
            · exact h4 a ha
            · simp at ha
              subst ha
              exact ⟨k, rfl⟩
          have h5' : (accepted ++ [mkAddress (gen k) domain]).length ≤ toProcess := by
            simp
            omega
          have := ih (k + 1) (accepted ++ [mkAddress (gen k) domain])
            (seen ++ [strToLower (mkAddress (gen k) domain)]) h1' h2' h3' h4' h5'
          exact ⟨this.1, this.2.1, this.2.2.1, this.2.2.2.1, this.2.2.2.2.1,
            le_trans this.2.2.2.2.2 (by omega)⟩
    · simp only [genLoop, if_neg hlen]
      exact ⟨h1, h2, h3, h4, h5, by omega⟩

/-- The invariants of `acceptedOf`, instantiated at the loop's entry state. -/
theorem acceptedOf_inv (db : List Email) (task : BatchTask) (gen : Nat → Str) :
    List.Pairwise (fun a b => strToLower a ≠ strToLower b) (acceptedOf db task gen) ∧
    (∀ a ∈ acceptedOf db task gen, strToLower a ∉ dbLower db) ∧
    (∀ a ∈ acceptedOf db task gen, ∃ j, a = mkAddress (gen j) task.domain) ∧
    (acceptedOf db task gen).length ≤ toProcessOf task := by
  have := genLoop_inv gen task.domain (dbLower db) (toProcessOf task)
    (toProcessOf task * 5) 0 [] [] (by simp) (by simp) (by simp) (by simp) (by simp)
  exact ⟨this.2.1, this.2.2.1, this.2.2.2.1, this.2.2.2.2.1⟩

/-- When every candidate the oracle can propose already collides with the
store, the loop accepts nothing. -/
theorem genLoop_all_collide (gen : Nat → Str) (domain : Str) (dbL : List Str) (toProcess : Nat)
    (h : ∀ j, strToLower (mkAddress (gen j) domain) ∈ dbL) :
    ∀ fuel k seen, (genLoop gen domain dbL toProcess fuel k [] seen).1 = [] := by
  intro fuel
  induction fuel with
  | zero => intro k seen; simp [genLoop]
  | succ fuel ih =>
    intro k seen
    by_cases hlen : (0 : Nat) < toProcess
    · simp only [genLoop, List.length_nil, if_pos hlen]
      by_cases hseen : strToLower (mkAddress (gen k) domain) ∈ seen
      · simp only [if_pos hseen]
        exact ih (k + 1) seen
      · simp only [if_neg hseen, if_pos (h k)]
        exact ih (k + 1) (seen ++ [strToLower (mkAddress (gen k) domain)])
    · simp only [genLoop, List.length_nil, if_neg hlen]

/-- Flattening the sub-batches of the insert loop recovers the row list. -/
theorem chunksOf_flatten {α : Type} (n : Nat) (hn : 0 < n) :
    ∀ fuel (l : List α), l.length ≤ fuel → (chunksOf n fuel l).flatten = l := by
  intro fuel
  induction fuel with
  | zero =>
    intro l hl
    have : l = [] := List.length_eq_zero.mp (Nat.le_zero.mp hl)
    subst this
    simp [chunksOf]
  | succ fuel ih =>
    intro l hl
    cases l with
    | nil => simp [chunksOf]
    | cons a l' =>
      simp only [chunksOf, List.flatten_cons]
      rw [ih _ (by rw [List.length_drop]; simp only [List.length_cons] at hl ⊢; omega)]
      exact List.take_append_drop n (a :: l')

/-- `chunks20` is a partition of the row list. -/
theorem chunks20_flatten {α : Type} (l : List α) : (chunks20 l).flatten = l :=
  chunksOf_flatten INSERT_BATCH_SIZE (by decide) l.length l le_rfl

/-- The per-sub-batch `returning` counts sum to the row count. -/
theorem chunks20_sumLen {α : Type} (l : List α) :
    ((chunks20 l).map List.length).sum = l.length := by
  rw [← List.length_flatten, chunks20_flatten]

/-- Elimination form of a successful insert phase: all rows were appended,
`created` counts them all, and the collected addresses are theirs in order. -/
theorem insertPhase_ok_elim (db rows : List Email) (f : Faults) (db' : List Email)
    (created : Nat) (as : List Str)
    (h : insertPhase db rows f = .ok db' created as) :
    db' = db ++ rows ∧ created = rows.length ∧ as = rows.map (·.address) := by
  unfold insertPhase at h
  by_cases he : rows.isEmpty
  · rw [if_pos he] at h
    have : rows = [] := List.isEmpty_iff.mp he
    subst this
    cases h
    simp
  · rw [if_neg he] at h
    rcases hf : f.failInsertAfterChunks with _ | ⟨k, m⟩
    · rw [hf] at h
      simp only at h
      cases h
      simp [chunks20_flatten, chunks20_sumLen]
    · rw [hf] at h
      simp at h

/-- A successful insert phase with no insert fault injected. -/
theorem insertPhase_ok (db rows : List Email) (f : Faults)
    (hf : f.failInsertAfterChunks = none) :
    insertPhase db rows f = .ok (db ++ rows) rows.length (rows.map (·.address)) := by
  unfold insertPhase
  by_cases he : rows.isEmpty
  · have : rows = [] := List.isEmpty_iff.mp he
    subst this
    simp
  · rw [if_neg he, hf]
    simp [chunks20_flatten, chunks20_sumLen]

/-- `recover` on an absent task does nothing. -/
theorem recover_none (w : World) (m : Str) (f : Faults) (now : Nat) (h : w.kv = none) :
    recover w m f now = (w, []) := by
  unfold recover
  rw [h]

/-- `recover` whose own KV put throws does nothing (only logs). -/
theorem recover_putFail (w : World) (t : BatchTask) (m : Str) (f : Faults) (now : Nat)
    (h : w.kv = some t) (hf : f.failRecoveryPut = true) :
    recover w m f now = (w, []) := by
  unfold recover
  rw [h]
  simp [hf]

/-- `recover` with a working KV put: the stored task is re-written as failed,
and the permanent record is best-effort upserted. -/
theorem recover_ok (w : World) (t : BatchTask) (m : Str) (f : Faults) (now : Nat)
    (h : w.kv = some t) (hf : f.failRecoveryPut = false) :
    recover w m f now =
      ({ kv := some (failTask t m now), emailsTable := w.emailsTable,
         record := if f.failRecoveryRecord then w.record
                   else some (upsertFailedRecord w.record (failTask t m now) now) },
       [failTask t m now]) := by
  unfold recover
  rw [h]
  simp only [hf, Bool.false_eq_true, if_false, failTask]
  by_cases hr : f.failRecoveryRecord
  · simp [hr]
  · simp [hr]

/-- The body with a generation-time storage fault goes to the catch handler. -/
theorem advanceBody_genFail (w : World) (task : BatchTask) (gen : Nat → Str) (f : Faults)
    (now : Nat) (writes0 : List BatchTask) (m : Str) (hgq : f.failGenQuery = some m) :
    advanceBody w task gen f now writes0 =
      ⟨.serverError, (recover w m f now).1, writes0 ++ (recover w m f now).2⟩ := by
  unfold advanceBody
  rw [hgq]

/-- The body whose insert phase throws goes to the catch handler with the
wrapped insert message, the partially inserted rows remaining in the table. -/
theorem advanceBody_insErr (w : World) (task : BatchTask) (gen : Nat → Str) (f : Faults)
    (now : Nat) (writes0 : List BatchTask) (db' : List Email) (m : Str)
    (hgq : f.failGenQuery = none)
    (herr : insertPhase w.emailsTable
      ((acceptedOf w.emailsTable task gen).map (mkRow task now)) f = .err db' m) :
    advanceBody w task gen f now writes0 =
      ⟨.serverError, (recover { w with emailsTable := db' } m f now).1,
       writes0 ++ (recover { w with emailsTable := db' } m f now).2⟩ := by
  unfold advanceBody
  rw [hgq]
  simp only [herr]

/-- The body with working generation and insert phases: the accepted rows are
appended to the table, the task updated to `successTask`, the permanent
record best-effort upserted on completion, and the final put performed. -/
theorem advanceBody_ok (w : World) (task : BatchTask) (gen : Nat → Str) (f : Faults)
    (now : Nat) (writes0 : List BatchTask)
    (hgq : f.failGenQuery = none) (hins : f.failInsertAfterChunks = none)
    (hfp : f.failFinalPut = none) (hst : task.status = .processing) :
    advanceBody w task gen f now writes0 =
      ⟨.success (finalSnap (successTask w.emailsTable task gen now)),
       { kv := some (successTask w.emailsTable task gen now),
         emailsTable := w.emailsTable ++ (acceptedOf w.emailsTable task gen).map (mkRow task now),
         record := if (successTask w.emailsTable task gen now).status = .completed
                      ∧ f.failRecordWrite = false
                   then some (upsertCompletedRecord w.record
                     (successTask w.emailsTable task gen now) now)
                   else w.record },
       writes0 ++ [successTask w.emailsTable task gen now]⟩ := by
  unfold advanceBody successTask
  rw [hgq]
  simp only [insertPhase_ok _ _ f hins]
  simp only [List.map_map, Function.comp_def, mkRow_address, List.map_id_fun', id_eq,
    List.length_map]
  by_cases h1 : (let t1 : BatchTask :=
      { task with
        processedCount := task.processedCount + (acceptedOf w.emailsTable task gen).length,
        createdCount := task.createdCount + (acceptedOf w.emailsTable task gen).length,
        updatedAt := now,
        emailList := if (acceptedOf w.emailsTable task gen).isEmpty then task.emailList
                     else some (task.emailList.getD [] ++ acceptedOf w.emailsTable task gen) };
    t1.totalCount < t1.processedCount)
  · simp only [if_pos h1]
    by_cases h2 : task.totalCount ≤ task.totalCount
    · simp only [if_pos h2, hfp]
      by_cases h3 : f.failRecordWrite
      · simp [h3]
      · simp [h3]
    · omega
  · simp only [if_neg h1]
    by_cases h2 : task.totalCount ≤ task.processedCount + (acceptedOf w.emailsTable task gen).length
    · simp only [if_pos h2, hfp]
      by_cases h3 : f.failRecordWrite
      · simp [h3]
      · simp [h3]
    · simp only [if_neg h2, hfp]
      simp [hst]

/-- `advance` whose initial KV load throws goes straight to the catch
handler, before any status check. -/
theorem advance_loadFail (w : World) (gen : Nat → Str) (f : Faults) (now : Nat) (m : Str)
    (hload : f.failLoad = some m) :
    advance w gen f now = ⟨.serverError, (recover w m f now).1, (recover w m f now).2⟩ := by
  unfold advance
  rw [hload]

/-- `advance` on an expired / absent task is a pure 404. -/
theorem advance_kvNone (w : World) (gen : Nat → Str) (f : Faults) (now : Nat)
    (hload : f.failLoad = none) (h : w.kv = none) :
    advance w gen f now = ⟨.notFound, w, []⟩ := by
  unfold advance
  rw [hload, h]

/-- `advance` on a completed task short-circuits without touching storage. -/
theorem advance_completed (w : World) (t : BatchTask) (gen : Nat → Str) (f : Faults) (now : Nat)
    (hload : f.failLoad = none) (hkv : w.kv = some t) (hst : t.status = .completed) :
    advance w gen f now = ⟨.success (completedSnap t), w, []⟩ := by
  unfold advance
  rw [hload, hkv]
  simp [hst]

/-- `advance` on a failed task short-circuits without touching storage. -/
theorem advance_failed (w : World) (t : BatchTask) (gen : Nat → Str) (f : Faults) (now : Nat)
    (hload : f.failLoad = none) (hkv : w.kv = some t) (hst : t.status = .failed) :
    advance w gen f now = ⟨.success (failedSnap t), w, []⟩ := by
  unfold advance
  rw [hload, hkv]
  simp [hst]

/-- `advance` on an in-flight processing task runs the body directly. -/
theorem advance_processing (w : World) (t : BatchTask) (gen : Nat → Str) (f : Faults) (now : Nat)
    (hload : f.failLoad = none) (hkv : w.kv = some t) (hst : t.status = .processing)
    (hlt : t.processedCount < t.totalCount) :
    advance w gen f now = advanceBody w t gen f now [] := by
  unfold advance
  rw [hload, hkv]
  simp [hst, hlt]

/-- `advance` on a processing task whose counter already reached the total
takes the residual `else` return (lines 91–101) without touching storage. -/
theorem advance_stale (w : World) (t : BatchTask) (gen : Nat → Str) (f : Faults) (now : Nat)
    (hload : f.failLoad = none) (hkv : w.kv = some t) (hst : t.status = .processing)
    (hge : t.totalCount ≤ t.processedCount) :
    advance w gen f now = ⟨.success (staleSnap t), w, []⟩ := by
  unfold advance
  rw [hload, hkv]
  simp [hst]
  omega

/-- `advance` on a pending task whose `pending → processing` put throws goes
straight to the catch handler: the stored task is still `pending` there. -/
theorem advance_pending_putFail (w : World) (t : BatchTask) (gen : Nat → Str) (f : Faults)
    (now : Nat) (m : Str) (hload : f.failLoad = none) (hkv : w.kv = some t)
    (hst : t.status = .pending) (hf : f.failFirstPut = some m) :
    advance w gen f now = ⟨.serverError, (recover w m f now).1, (recover w m f now).2⟩ := by
  unfold advance
  rw [hload, hkv]
  simp [hst, hf]

/-- `advance` on a pending task: persist `processing` first, then run the
body on the transitioned task. -/
theorem advance_pending_ok (w : World) (t : BatchTask) (gen : Nat → Str) (f : Faults)
    (now : Nat) (hload : f.failLoad = none) (hkv : w.kv = some t)
    (hst : t.status = .pending) (hf : f.failFirstPut = none) :
    advance w gen f now =
      advanceBody { w with kv := some (procTask t now) } (procTask t now) gen f now
        [procTask t now] := by
  unfold advance
  rw [hload, hkv]
  simp [hst, hf, procTask]

/-- Variant of `advanceBody_ok` driven by the insert phase's actual outcome
(also covering an injected insert fault that never fires because no row was
accepted). -/
theorem advanceBody_okAny (w : World) (task : BatchTask) (gen : Nat → Str) (f : Faults)
    (now : Nat) (writes0 : List BatchTask) (db' : List Email) (c : Nat) (as : List Str)
    (hgq : f.failGenQuery = none)
    (hok : insertPhase w.emailsTable ((acceptedOf w.emailsTable task gen).map (mkRow task now)) f
           = .ok db' c as)
    (hfp : f.failFinalPut = none) (hst : task.status = .processing) :
    advanceBody w task gen f now writes0 =
      ⟨.success (finalSnap (successTask w.emailsTable task gen now)),
       { kv := some (successTask w.emailsTable task gen now),
         emailsTable := w.emailsTable ++ (acceptedOf w.emailsTable task gen).map (mkRow task now),
         record := if (successTask w.emailsTable task gen now).status = .completed
                      ∧ f.failRecordWrite = false
                   then some (upsertCompletedRecord w.record
                     (successTask w.emailsTable task gen now) now)
                   else w.record },
       writes0 ++ [successTask w.emailsTable task gen now]⟩ := by
  obtain ⟨h1, h2, h3⟩ := insertPhase_ok_elim _ _ _ _ _ _ hok
  subst h1 h2 h3
  unfold advanceBody successTask
  rw [hgq]
  simp only [hok]
  simp only [List.map_map, Function.comp_def, mkRow_address, List.map_id_fun', id_eq,
    List.length_map]
  by_cases h1 : (let t1 : BatchTask :=
      { task with
        processedCount := task.processedCount + (acceptedOf w.emailsTable task gen).length,
        createdCount := task.createdCount + (acceptedOf w.emailsTable task gen).length,
        updatedAt := now,
        emailList := if (acceptedOf w.emailsTable task gen).isEmpty then task.emailList
                     else some (task.emailList.getD [] ++ acceptedOf w.emailsTable task gen) };
    t1.totalCount < t1.processedCount)
  · simp only [if_pos h1]
    by_cases h2 : task.totalCount ≤ task.totalCount
    · simp only [if_pos h2, hfp]
      by_cases h3 : f.failRecordWrite
      · simp [h3]
      · simp [h3]
    · omega
  · simp only [if_neg h1]
    by_cases h2 : task.totalCount ≤ task.processedCount + (acceptedOf w.emailsTable task gen).length
    · simp only [if_pos h2, hfp]
      by_cases h3 : f.failRecordWrite
      · simp [h3]
      · simp [h3]
    · simp only [if_neg h2, hfp]
      simp [hst]

/-- The body whose final KV put throws: the rows are already inserted and the
record possibly upserted, then the catch handler runs against the stored
(pre-update) task. -/
theorem advanceBody_okPutFail (w : World) (task : BatchTask) (gen : Nat → Str) (f : Faults)
    (now : Nat) (writes0 : List BatchTask) (db' : List Email) (c : Nat) (as : List Str) (m : Str)
    (hgq : f.failGenQuery = none)
    (hok : insertPhase w.emailsTable ((acceptedOf w.emailsTable task gen).map (mkRow task now)) f
           = .ok db' c as)
    (hfp : f.failFinalPut = some m) (hst : task.status = .processing) :
    advanceBody w task gen f now writes0 =
      ⟨.serverError,
       (recover
         { kv := w.kv,
           emailsTable := w.emailsTable ++ (acceptedOf w.emailsTable task gen).map (mkRow task now),
           record := if (successTask w.emailsTable task gen now).status = .completed
                        ∧ f.failRecordWrite = false
                     then some (upsertCompletedRecord w.record
                       (successTask w.emailsTable task gen now) now)
                     else w.record } m f now).1,
       writes0 ++
         (recover
           { kv := w.kv,
             emailsTable := w.emailsTable ++ (acceptedOf w.emailsTable task gen).map (mkRow task now),
             record := if (successTask w.emailsTable task gen now).status = .completed
                          ∧ f.failRecordWrite = false
                       then some (upsertCompletedRecord w.record
                         (successTask w.emailsTable task gen now) now)
                       else w.record } m f now).2⟩ := by
  obtain ⟨h1, h2, h3⟩ := insertPhase_ok_elim _ _ _ _ _ _ hok
  subst h1 h2 h3
  unfold advanceBody successTask
  rw [hgq]
  simp only [hok]
  simp only [List.map_map, Function.comp_def, mkRow_address, List.map_id_fun', id_eq,
    List.length_map]
  by_cases h1 : (let t1 : BatchTask :=
      { task with
        processedCount := task.processedCount + (acceptedOf w.emailsTable task gen).length,
        createdCount := task.createdCount + (acceptedOf w.emailsTable task gen).length,
        updatedAt := now,
        emailList := if (acceptedOf w.emailsTable task gen).isEmpty then task.emailList
                     else some (task.emailList.getD [] ++ acceptedOf w.emailsTable task gen) };
    t1.totalCount < t1.processedCount)
  · simp only [if_pos h1]
    by_cases h2 : task.totalCount ≤ task.totalCount
    · simp only [if_pos h2, hfp]
      by_cases h3 : f.failRecordWrite
      · simp [h3]
      · simp [h3]
    · omega
  · simp only [if_neg h1]
    by_cases h2 : task.totalCount ≤ task.processedCount + (acceptedOf w.emailsTable task gen).length
    · simp only [if_pos h2, hfp]
      by_cases h3 : f.failRecordWrite
      · simp [h3]
      · simp [h3]
    · simp only [if_neg h2, hfp]
      simp [hst]

/-- Every possible outcome of the body, by the stored task and writes:
either nothing beyond `writes0` was written, or the stored task was re-written
as failed by the catch handler, or the updated `successTask` was persisted. -/
theorem advanceBody_shapes (w : World) (task : BatchTask) (gen : Nat → Str) (f : Faults)
    (now : Nat) (writes0 : List BatchTask)
    (hkv : w.kv = some task) (hst : task.status = .processing) :
    ((advanceBody w task gen f now writes0).world.kv = some task ∧
      (advanceBody w task gen f now writes0).writes = writes0) ∨
    (∃ m, (advanceBody w task gen f now writes0).world.kv = some (failTask task m now) ∧
      (advanceBody w task gen f now writes0).writes = writes0 ++ [failTask task m now]) ∨
    ((advanceBody w task gen f now writes0).world.kv
        = some (successTask w.emailsTable task gen now) ∧
      (advanceBody w task gen f now writes0).writes
        = writes0 ++ [successTask w.emailsTable task gen now]) := by
  rcases hgq : f.failGenQuery with _ | m
  · rcases hok : insertPhase w.emailsTable
        ((acceptedOf w.emailsTable task gen).map (mkRow task now)) f with ⟨db', c, as⟩ | ⟨db', m⟩
    · rcases hfp : f.failFinalPut with _ | m
      · rw [advanceBody_okAny w task gen f now writes0 db' c as hgq hok hfp hst]
        right; right
        exact ⟨rfl, rfl⟩
      · rw [advanceBody_okPutFail w task gen f now writes0 db' c as m hgq hok hfp hst]
        by_cases hrp : f.failRecoveryPut
        · rw [recover_putFail _ task _ _ _ (by simpa using hkv) hrp]
          left
          simpa using hkv
        · rw [recover_ok _ task _ _ _ (by simpa using hkv) (by simpa using hrp)]
          right; left
          exact ⟨m, rfl, rfl⟩
    · rw [advanceBody_insErr w task gen f now writes0 db' m hgq hok]
      by_cases hrp : f.failRecoveryPut
      · rw [recover_putFail _ task _ _ _ (by simpa using hkv) hrp]
        left
        simpa using hkv
      · rw [recover_ok _ task _ _ _ (by simpa using hkv) (by simpa using hrp)]
        right; left
        exact ⟨m, rfl, rfl⟩
  · rw [advanceBody_genFail w task gen f now writes0 m hgq]
    by_cases hrp : f.failRecoveryPut
    · rw [recover_putFail _ task _ _ _ hkv hrp]
      left
      simpa using hkv
    · rw [recover_ok _ task _ _ _ hkv (by simpa using hrp)]
      right; left
      exact ⟨m, rfl, rfl⟩

/-- Every possible outcome of one `advance` call on a stored task `t`,
classified by the final stored task and the KV writes performed.  The second
shape — the catch handler re-writing the stored task as failed — can hit a
task of any status, terminal ones included, when the initial load throws. -/
theorem advance_shapes (w : World) (t : BatchTask) (gen : Nat → Str) (f : Faults) (now : Nat)
    (hkv : w.kv = some t) :
    ((advance w gen f now).world.kv = some t ∧ (advance w gen f now).writes = []) ∨
    (∃ m, (advance w gen f now).world.kv = some (failTask t m now) ∧
      (advance w gen f now).writes = [failTask t m now]) ∨
    (∃ m, (advance w gen f now).world.kv = some (failTask (procTask t now) m now) ∧
      (advance w gen f now).writes = [procTask t now, failTask (procTask t now) m now] ∧
      t.status = .pending) ∨
    ((advance w gen f now).world.kv = some (procTask t now) ∧
      (advance w gen f now).writes = [procTask t now] ∧ t.status = .pending) ∨
    ((advance w gen f now).world.kv = some (successTask w.emailsTable t gen now) ∧
      (advance w gen f now).writes = [successTask w.emailsTable t gen now] ∧
      t.status = .processing) ∨
    ((advance w gen f now).world.kv = some (successTask w.emailsTable (procTask t now) gen now) ∧
      (advance w gen f now).writes =
        [procTask t now, successTask w.emailsTable (procTask t now) gen now] ∧
      t.status = .pending) := by
  rcases hload : f.failLoad with _ | m
  · rcases hst : t.status with _ | _ | _ | _
    · -- pending
      rcases hf1 : f.failFirstPut with _ | m
      · rw [advance_pending_ok w t gen f now hload hkv hst hf1]
        have hkv' : ({ w with kv := some (procTask t now) } : World).kv
            = some (procTask t now) := rfl
        have hst' : (procTask t now).status = .processing := rfl
        rcases advanceBody_shapes { w with kv := some (procTask t now) } (procTask t now) gen f
            now [procTask t now] hkv' hst' with ⟨h1, h2⟩ | ⟨m, h1, h2⟩ | ⟨h1, h2⟩
        · right; right; right; left
          exact ⟨h1, h2, rfl⟩
        · right; right; left
          exact ⟨m, h1, by simpa using h2, rfl⟩
        · right; right; right; right; right
          refine ⟨?_, by simpa using h2, rfl⟩
          simpa using h1
      · rw [advance_pending_putFail w t gen f now m hload hkv hst hf1]
        by_cases hrp : f.failRecoveryPut
        · rw [recover_putFail _ t _ _ _ hkv hrp]
          left
          exact ⟨hkv, rfl⟩
        · rw [recover_ok _ t _ _ _ hkv (by simpa using hrp)]
          right; left
          exact ⟨m, rfl, rfl⟩
    · -- processing
      by_cases hlt : t.processedCount < t.totalCount
      · rw [advance_processing w t gen f now hload hkv hst hlt]
        rcases advanceBody_shapes w t gen f now [] hkv hst with
          ⟨h1, h2⟩ | ⟨m, h1, h2⟩ | ⟨h1, h2⟩
        · left
          exact ⟨h1, h2⟩
        · right; left
          exact ⟨m, h1, by simpa using h2⟩
        · right; right; right; right; left
          exact ⟨h1, by simpa using h2, rfl⟩
      · rw [advance_stale w t gen f now hload hkv hst (by omega)]
        left
        exact ⟨hkv, rfl⟩
    · -- completed
      rw [advance_completed w t gen f now hload hkv hst]
      left
      exact ⟨hkv, rfl⟩
    · -- failed
      rw [advance_failed w t gen f now hload hkv hst]
      left
      exact ⟨hkv, rfl⟩
  · -- the initial KV load throws: straight to the catch handler
    rw [advance_loadFail w gen f now m hload]
    by_cases hrp : f.failRecoveryPut
    · rw [recover_putFail _ t _ _ _ hkv hrp]
      left
      exact ⟨hkv, rfl⟩
    · rw [recover_ok _ t _ _ _ hkv (by simpa using hrp)]
      right; left
      exact ⟨m, rfl, rfl⟩

/-! ## Claims -/

/-- **C3 (counterexample).**  The claim says advance on a terminal task
always returns its snapshot and performs no store write.  But the initial KV
task load (line 44) sits inside the `try`: when it throws on the completed
task `taskDone` and the catch handler's re-read succeeds, the handler
re-writes the completed task as failed and the call returns 500 — a store
write occurs, the stored task changes, and no snapshot is returned. -/
theorem C3_counterexample :
    taskDone.status = .completed ∧
    (advance wDone genConst { failLoad := some "kv get failed".toList } 9).world.kv
      = some (failTask taskDone "kv get failed".toList 9) ∧
    (advance wDone genConst { failLoad := some "kv get failed".toList } 9).world ≠ wDone ∧
    (advance wDone genConst { failLoad := some "kv get failed".toList } 9).writes ≠ [] ∧
    (advance wDone genConst { failLoad := some "kv get failed".toList } 9).res
      = .serverError := by
  decide

/-- **C3 (amended).**  Calling advance on a task whose status is completed or
failed, when the initial task load succeeds, is an idempotent no-op: it
returns the task's current snapshot (counters, status, progress) and leaves
the stored task entirely unchanged — no store write occurs, and the result
does not depend on the call's randomness, on its remaining faults or on its
time.  (If the initial load throws, the catch handler may instead re-write
the terminal task as failed and return 500 — see the counterexample.  The
hypotheses `hcp` and `hpos` record invariants of every reachable task:
completion always sets `processedCount = totalCount`, and tasks are created
with a positive `totalCount`.) -/
theorem C3_terminal_advance_noop (w : World) (t : BatchTask) (gen gen' : Nat → Str)
    (f f' : Faults) (now now' : Nat)
    (hload : f.failLoad = none) (hload' : f'.failLoad = none) (hkv : w.kv = some t)
    (hterm : t.status = .completed ∨ t.status = .failed)
    (hcp : t.status = .completed → t.processedCount = t.totalCount)
    (hpos : 0 < t.totalCount) :
    (advance w gen f now).world = w ∧
    (advance w gen f now).writes = [] ∧
    advance w gen f now = advance w gen' f' now' ∧
    ∃ snap, (advance w gen f now).res = .success snap ∧
      snap.status = t.status ∧ snap.processed = t.processedCount ∧
      snap.total = t.totalCount ∧ snap.created = t.createdCount ∧
      snap.progress = roundPct t.processedCount t.totalCount := by
  rcases hterm with hst | hst
  · rw [advance_completed w t gen f now hload hkv hst,
        advance_completed w t gen' f' now' hload' hkv hst]
    refine ⟨rfl, rfl, rfl, completedSnap t, rfl, ?_, rfl, rfl, rfl, ?_⟩
    · simp [completedSnap, hst]
    · simp [completedSnap, hcp hst, roundPct_self _ hpos]
  · rw [advance_failed w t gen f now hload hkv hst,
        advance_failed w t gen' f' now' hload' hkv hst]
    refine ⟨rfl, rfl, rfl, failedSnap t, rfl, ?_, rfl, rfl, rfl, rfl⟩
    simp [failedSnap, hst]

/-- Witness for C3 at the concrete completed task `taskDone`. -/
theorem C3_terminal_advance_noop_witness :
    (advance wDone genConst noFaults 5).world = wDone ∧
    (advance wDone genConst noFaults 5).writes = [] ∧
    advance wDone genConst noFaults 5
      = advance wDone (genSeq 7) { failFinalPut := some ['z'] } 9 ∧
    ∃ snap, (advance wDone genConst noFaults 5).res = .success snap ∧
      snap.status = taskDone.status ∧ snap.processed = taskDone.processedCount ∧
      snap.total = taskDone.totalCount ∧ snap.created = taskDone.createdCount ∧
      snap.progress = roundPct taskDone.processedCount taskDone.totalCount :=
  C3_terminal_advance_noop wDone taskDone genConst (genSeq 7) noFaults
    { failFinalPut := some ['z'] } 5 9 rfl rfl rfl (Or.inl rfl) (fun _ => rfl) (by decide)

/-- **C5 (counterexample).**  The claim says a request *at* the async
threshold of 50 creates a task; but the create route tests
`batchCount > ASYNC_THRESHOLD` strictly, so a fully valid request with
`totalCount = 50` is rejected to the synchronous path and no task is
created. -/
theorem C5_counterexample :
    ASYNC_THRESHOLD ≤ 50 ∧
    createBatch (some aliceId) dukeRole [0] (some ['d']) 1000
      { expiryTime := 0, domain := ['d'], batch := some 50 } wEmpty "tid0".toList 5
      = (.useSyncPath, wEmpty) := by
  constructor
  · decide
  · rfl

/-- **C5 (amended).**  For a request that passes expiry, domain and quota
validation, `createBatch` rejects to the synchronous path (400) exactly when
the requested `totalCount` is at or below the async threshold of 50, and for
every valid request strictly above the threshold it creates a pending Task
with the request's `totalCount` and zeroed counters and returns its id. -/
theorem C5_amended_threshold (uid role : Str) (expiryOptions : List Nat)
    (emailDomains : Option Str) (maxCount : Nat) (req : CreateReq) (w : World)
    (tid : Str) (now : Nat)
    (hexp : req.expiryTime ∈ expiryOptions)
    (hdom : req.domain ∈ (match emailDomains with
        | some s => splitComma s
        | none => ["moemail.app".toList]))
    (hquota : role = EMPEROR ∨
      (w.emailsTable.filter (fun e => decide (e.userId = uid ∧ now < e.expiresAt))).length
        + req.batch.getD 1 ≤ maxCount) :
    (req.batch.getD 1 ≤ ASYNC_THRESHOLD →
      createBatch (some uid) role expiryOptions emailDomains maxCount req w tid now
        = (.useSyncPath, w)) ∧
    (ASYNC_THRESHOLD < req.batch.getD 1 →
      ∃ task,
        createBatch (some uid) role expiryOptions emailDomains maxCount req w tid now
          = (.created tid, { w with kv := some task }) ∧
        task.status = .pending ∧ task.taskId = tid ∧ task.userId = uid ∧
        task.domain = req.domain ∧ task.totalCount = req.batch.getD 1 ∧
        task.processedCount = 0 ∧ task.createdCount = 0) := by
  unfold createBatch
  dsimp only
  rw [if_neg (not_not_intro hexp), if_neg (not_not_intro hdom)]
  have hq : (if role ≠ EMPEROR then
      (if maxCount < (w.emailsTable.filter
          (fun e => decide (e.userId = uid ∧ now < e.expiresAt))).length + req.batch.getD 1
       then some ((w.emailsTable.filter
          (fun e => decide (e.userId = uid ∧ now < e.expiresAt))).length, maxCount)
       else none)
      else none) = (none : Option (Nat × Nat)) := by
    by_cases hrole : role = EMPEROR
    · rw [if_neg (not_not_intro hrole)]
    · rw [if_pos hrole]
      rcases hquota with h | h
      · exact absurd h hrole
      · rw [if_neg (by omega)]
  simp only [hq]
  constructor
  · intro hle
    rw [if_neg (by omega)]
  · intro hgt
    rw [if_pos hgt]
    exact ⟨_, rfl, rfl, rfl, rfl, rfl, rfl, rfl, rfl⟩

/-- Witness for C5 (amended): a valid request for 51 addresses creates a
pending task; the same request for 40 is redirected. -/
theorem C5_amended_threshold_witness :
    ((40 : Nat) ≤ ASYNC_THRESHOLD →
      createBatch (some aliceId) dukeRole [0] (some ['d']) 1000
        { expiryTime := 0, domain := ['d'], batch := some 40 } wEmpty "tid0".toList 5
        = (.useSyncPath, wEmpty)) ∧
    (ASYNC_THRESHOLD < (51 : Nat) →
      ∃ task,
        createBatch (some aliceId) dukeRole [0] (some ['d']) 1000
          { expiryTime := 0, domain := ['d'], batch := some 51 } wEmpty "tid0".toList 5
          = (.created "tid0".toList, { wEmpty with kv := some task }) ∧
        task.status = .pending ∧ task.taskId = "tid0".toList ∧ task.userId = aliceId ∧
        task.domain = ['d'] ∧ task.totalCount = 51 ∧
        task.processedCount = 0 ∧ task.createdCount = 0) :=
  ⟨(C5_amended_threshold aliceId dukeRole [0] (some ['d']) 1000
      { expiryTime := 0, domain := ['d'], batch := some 40 } wEmpty "tid0".toList 5
      (by decide) (by decide) (Or.inr (by decide))).1,
   (C5_amended_threshold aliceId dukeRole [0] (some ['d']) 1000
      { expiryTime := 0, domain := ['d'], batch := some 51 } wEmpty "tid0".toList 5
      (by decide) (by decide) (Or.inr (by decide))).2⟩

set_option maxRecDepth 100000 in
/-- **C1 (counterexample).**  The claim says every task request by a
requester other than the owner is rejected with 403 and leaves the task
untouched.  But the process route performs no owner check at all (it never
even resolves a user): on the pending task created by `aliceId`, a process
request attributed to `bobId` succeeds with a snapshot and mutates the
stored task. -/
theorem C1_counterexample :
    c1World.kv.map (·.userId) = some aliceId ∧
    aliceId ≠ bobId ∧
    isSuccess (processPOSTAsUser (some bobId) c1World (genSeq 0) noFaults 6).res = true ∧
    (processPOSTAsUser (some bobId) c1World (genSeq 0) noFaults 6).world.kv ≠ c1World.kv := by
  decide

/-- **C1 (amended).**  The status read and the download are scoped to the
task's owner: a requester other than the owner gets 403 from both (whether
the task is still in KV or only in the permanent record).  The advance /
process operation, however, performs no owner check: its outcome is
identical for every requester, authenticated or not. -/
theorem C1_amended_owner_scoping :
    (∀ uid w t, w.kv = some t → t.userId ≠ uid →
      statusGET (some uid) w = .forbidden ∧ downloadGET (some uid) w = .forbidden) ∧
    (∀ uid w r, w.kv = none → w.record = some r → r.userId ≠ uid →
      downloadGET (some uid) w = .forbidden) ∧
    (∀ r r' w gen f now, processPOSTAsUser r w gen f now = processPOSTAsUser r' w gen f now) := by
  refine ⟨?_, ?_, ?_⟩
  · intro uid w t hkv hne
    constructor
    · unfold statusGET
      rw [hkv]
      simp [hne]
    · unfold downloadGET
      rw [hkv]
      simp [hne]
  · intro uid w r hkv hrec hne
    unfold downloadGET
    rw [hkv, hrec]
    simp [hne]
  · intro r r' w gen f now
    rfl

/-- Witness for C1 (amended) at the concrete task `taskDone` (owned by
`aliceId`) queried by `bobId`. -/
theorem C1_amended_owner_scoping_witness :
    statusGET (some bobId) wDone = .forbidden ∧ downloadGET (some bobId) wDone = .forbidden :=
  C1_amended_owner_scoping.1 bobId wDone taskDone rfl (by decide)

/-- **C4 (counterexample).**  The claim forbids a persisted transition from
`pending` directly to `failed`.  But when the KV put recording
`pending → processing` throws, the catch handler re-writes the still-pending
stored task as `failed`: the persisted status sequence is exactly
`pending, failed`, which the spec's transition relation rejects. -/
theorem C4_counterexample :
    task60.status = .pending ∧
    (advance w60 genConst { failFirstPut := some "kv put failed".toList } 7).writes.map (·.status)
      = [.failed] ∧
    chainOK specStep (task60.status ::
      (advance w60 genConst { failFirstPut := some "kv put failed".toList } 7).writes.map
        (·.status)) = false := by
  decide

/-- When every candidate the oracle proposes collides with the store, an
error-free `advance` on an in-flight processing task only refreshes
`updatedAt`: counters, status, address list, the address table and the
permanent record are all unchanged, and the response still reports success
with `hasMore = true`. -/
theorem advance_allCollide (w : World) (t : BatchTask) (gen : Nat → Str) (now : Nat)
    (hkv : w.kv = some t) (hst : t.status = .processing)
    (hlt : t.processedCount < t.totalCount)
    (hcol : ∀ j, strToLower (mkAddress (gen j) t.domain) ∈ dbLower w.emailsTable) :
    advance w gen noFaults now =
      ⟨.success { status := .processing, processed := t.processedCount, total := t.totalCount,
                  created := t.createdCount,
                  progress := roundPct t.processedCount t.totalCount, hasMore := some true },
       { kv := some { t with updatedAt := now }, emailsTable := w.emailsTable,
         record := w.record },
       [{ t with updatedAt := now }]⟩ := by
  have hacc : acceptedOf w.emailsTable t gen = [] := by
    unfold acceptedOf
    exact genLoop_all_collide gen t.domain (dbLower w.emailsTable) (toProcessOf t) hcol _ 0 []
  have hS : successTask w.emailsTable t gen now = { t with updatedAt := now } := by
    unfold successTask
    rw [hacc]
    dsimp only
    simp only [List.length_nil, List.isEmpty_nil, if_true, Nat.add_zero]
    rw [if_neg (show ¬ t.totalCount < t.processedCount by omega)]
    dsimp only
    rw [if_neg (show ¬ t.totalCount ≤ t.processedCount by omega)]
  rw [advance_processing w t gen noFaults now rfl hkv hst hlt,
      advanceBody_ok w t gen noFaults now [] rfl rfl rfl hst, hacc, hS]
  have hne : ¬(({ t with updatedAt := now } : BatchTask).status = .completed ∧
      noFaults.failRecordWrite = false) := by
    simp only [not_and]
    intro hcon
    rw [show ({ t with updatedAt := now } : BatchTask).status = t.status from rfl, hst] at hcon
    exact absurd hcon (by simp)
  rw [if_neg hne]
  simp only [List.map_nil, List.append_nil, List.nil_append]
  have : finalSnap { t with updatedAt := now } =
      { status := .processing, processed := t.processedCount, total := t.totalCount,
        created := t.createdCount, progress := roundPct t.processedCount t.totalCount,
        hasMore := some true } := by
    unfold finalSnap
    simp only [show ({ t with updatedAt := now } : BatchTask).status = t.status from rfl, hst]
    congr 1
    simp [hlt]
  rw [this]

/-- One cons step of `runCalls`, projected to the final world. -/
theorem runCalls_cons_world (w : World) (c : CallInput) (cs : List CallInput) :
    (runCalls w (c :: cs)).1 = (runCalls (advance w c.gen c.faults c.nowMs).world cs).1 := rfl

/-- `advance` leaves the all-collision world at its fixed point. -/
theorem advance_allCollide_fixed (w : World) (t : BatchTask) (gen : Nat → Str) (now : Nat)
    (hst : t.status = .processing) (hlt : t.processedCount < t.totalCount)
    (hcol : ∀ j, strToLower (mkAddress (gen j) t.domain) ∈ dbLower w.emailsTable) :
    (advance ⟨some { t with updatedAt := now }, w.emailsTable, w.record⟩ gen noFaults now).world
      = ⟨some { t with updatedAt := now }, w.emailsTable, w.record⟩ := by
  rw [advance_allCollide ⟨some { t with updatedAt := now }, w.emailsTable, w.record⟩
      { t with updatedAt := now } gen now rfl hst hlt hcol]

/-- **C9.**  Within a single advance call for a chunk of size
`n = min(100, totalCount − processedCount)`, at most `5 × n`
candidate-generation attempts are made; every accepted candidate is
case-insensitively distinct from all other candidates accepted in that call
and case-insensitively absent from the address store at check time; and
accepting fewer than `n` candidates within the budget is not an error — the
call still succeeds and the accepted partial set is persisted to the address
table. -/
theorem C9_generation_budget (w : World) (t : BatchTask) (gen : Nat → Str) (now : Nat)
    (hkv : w.kv = some t) (hst : t.status = .processing)
    (hlt : t.processedCount < t.totalCount) :
    (acceptedOf w.emailsTable t gen).length ≤ toProcessOf t ∧
    (genLoop gen t.domain (dbLower w.emailsTable) (toProcessOf t)
        (toProcessOf t * 5) 0 [] []).2.2 ≤ toProcessOf t * 5 ∧
    List.Pairwise (fun a b => strToLower a ≠ strToLower b) (acceptedOf w.emailsTable t gen) ∧
    (∀ a ∈ acceptedOf w.emailsTable t gen, strToLower a ∉ dbLower w.emailsTable) ∧
    isSuccess (advance w gen noFaults now).res = true ∧
    (advance w gen noFaults now).world.emailsTable
      = w.emailsTable ++ (acceptedOf w.emailsTable t gen).map (mkRow t now) := by
  have hinv := genLoop_inv gen t.domain (dbLower w.emailsTable) (toProcessOf t)
    (toProcessOf t * 5) 0 [] [] (by simp) (by simp) (by simp) (by simp) (by simp)
  refine ⟨(acceptedOf_inv w.emailsTable t gen).2.2.2, by simpa using hinv.2.2.2.2.2,
    (acceptedOf_inv w.emailsTable t gen).1, (acceptedOf_inv w.emailsTable t gen).2.1, ?_, ?_⟩
  · rw [advance_processing w t gen noFaults now rfl hkv hst hlt,
        advanceBody_ok w t gen noFaults now [] rfl rfl rfl hst]
    rfl
  · rw [advance_processing w t gen noFaults now rfl hkv hst hlt,
        advanceBody_ok w t gen noFaults now [] rfl rfl rfl hst]

/-- Witness for C9 at the concrete mid-flight task `taskMid` with the
deterministic fresh oracle. -/
theorem C9_generation_budget_witness :
    (acceptedOf wMid.emailsTable taskMid (genSeq 0)).length ≤ toProcessOf taskMid ∧
    (genLoop (genSeq 0) taskMid.domain (dbLower wMid.emailsTable) (toProcessOf taskMid)
        (toProcessOf taskMid * 5) 0 [] []).2.2 ≤ toProcessOf taskMid * 5 ∧
    List.Pairwise (fun a b => strToLower a ≠ strToLower b)
      (acceptedOf wMid.emailsTable taskMid (genSeq 0)) ∧
    (∀ a ∈ acceptedOf wMid.emailsTable taskMid (genSeq 0),
      strToLower a ∉ dbLower wMid.emailsTable) ∧
    isSuccess (advance wMid (genSeq 0) noFaults 9).res = true ∧
    (advance wMid (genSeq 0) noFaults 9).world.emailsTable
      = wMid.emailsTable ++ (acceptedOf wMid.emailsTable taskMid (genSeq 0)).map
          (mkRow taskMid 9) :=
  C9_generation_budget wMid taskMid (genSeq 0) 9 rfl rfl (by decide)

/-- **C10.**  For an advance call on a processing task in which zero
candidates are accepted (every attempt in the `5 × chunkSize` budget
collides), the stored task's `processedCount`, `createdCount`, `status` and
address list are left unchanged — only `updatedAt` advances — the call still
returns success with `hasMore = true`, and no failure is raised; iterating
such calls never moves the task to a terminal state. -/
theorem C10_zero_accept_frame (w : World) (t : BatchTask) (gen : Nat → Str) (now : Nat)
    (hkv : w.kv = some t) (hst : t.status = .processing)
    (hlt : t.processedCount < t.totalCount)
    (hcol : ∀ j, strToLower (mkAddress (gen j) t.domain) ∈ dbLower w.emailsTable) :
    (advance w gen noFaults now).world.kv = some { t with updatedAt := now } ∧
    (advance w gen noFaults now).world.emailsTable = w.emailsTable ∧
    (advance w gen noFaults now).world.record = w.record ∧
    (advance w gen noFaults now).res = .success
      { status := .processing, processed := t.processedCount, total := t.totalCount,
        created := t.createdCount, progress := roundPct t.processedCount t.totalCount,
        hasMore := some true } ∧
    ∀ n, ∃ u, (runCalls w (List.replicate n ⟨gen, noFaults, now⟩)).1.kv
        = some { t with updatedAt := u } ∧
      ({ t with updatedAt := u } : BatchTask).status = .processing := by
  have hone := advance_allCollide w t gen now hkv hst hlt hcol
  refine ⟨by rw [hone], by rw [hone], by rw [hone], by rw [hone], ?_⟩
  have hfix : ∀ n, (runCalls ⟨some { t with updatedAt := now }, w.emailsTable, w.record⟩
        (List.replicate n ⟨gen, noFaults, now⟩)).1
      = ⟨some { t with updatedAt := now }, w.emailsTable, w.record⟩ := by
    intro n
    induction n with
    | zero => rfl
    | succ n ih =>
      rw [List.replicate_succ, runCalls_cons_world]
      rw [advance_allCollide_fixed w t gen now hst hlt hcol]
      exact ih
  intro n
  cases n with
  | zero =>
    refine ⟨t.updatedAt, ?_, hst⟩
    show w.kv = _
    rw [hkv]
  | succ n =>
    refine ⟨now, ?_, hst⟩
    rw [List.replicate_succ, runCalls_cons_world]
    rw [show (advance w gen noFaults now).world
        = ⟨some { t with updatedAt := now }, w.emailsTable, w.record⟩ from by rw [hone]]
    rw [hfix n]

/-- Witness for C10 at the concrete `wMid`, whose address table already
contains the single candidate `x@d` that `genConst` keeps proposing. -/
theorem C10_zero_accept_frame_witness :
    (advance wMid genConst noFaults 777).world.kv
      = some { taskMid with updatedAt := 777 } ∧
    (advance wMid genConst noFaults 777).world.emailsTable = wMid.emailsTable ∧
    (advance wMid genConst noFaults 777).world.record = wMid.record ∧
    (advance wMid genConst noFaults 777).res = .success
      { status := .processing, processed := taskMid.processedCount,
        total := taskMid.totalCount, created := taskMid.createdCount,
        progress := roundPct taskMid.processedCount taskMid.totalCount,
        hasMore := some true } ∧
    ∀ n, ∃ u, (runCalls wMid (List.replicate n ⟨genConst, noFaults, 777⟩)).1.kv
        = some { taskMid with updatedAt := u } ∧
      ({ taskMid with updatedAt := u } : BatchTask).status = .processing :=
  C10_zero_accept_frame wMid taskMid genConst 777 rfl rfl (by decide)
    (fun _ => show strToLower (mkAddress ['x'] taskMid.domain) ∈ dbLower wMid.emailsTable
      by decide)

/-- The fault-free task update preserves the counter invariants and never
decreases a counter; the total and identity fields are untouched. -/
theorem successTask_counters (db : List Email) (t : BatchTask) (gen : Nat → Str) (now : Nat)
    (hinv : counterInv t) :
    counterInv (successTask db t gen now) ∧
    t.processedCount ≤ (successTask db t gen now).processedCount ∧
    t.createdCount ≤ (successTask db t gen now).createdCount := by
  obtain ⟨hp, hc⟩ := hinv
  have hlen : (acceptedOf db t gen).length ≤ toProcessOf t := (acceptedOf_inv db t gen).2.2.2
  have hbound : toProcessOf t ≤ t.totalCount - t.processedCount := min_le_right _ _
  unfold successTask
  dsimp only
  by_cases h1 : t.totalCount < t.processedCount + (acceptedOf db t gen).length
  · rw [if_pos h1]
    dsimp only
    by_cases h2 : t.totalCount ≤ t.totalCount
    · rw [if_pos h2]
      simp only [counterInv]
      refine ⟨⟨?_, ?_⟩, ?_, ?_⟩ <;> (dsimp only; omega)
    · omega
  · rw [if_neg h1]
    dsimp only
    by_cases h2 : t.totalCount ≤ t.processedCount + (acceptedOf db t gen).length
    · rw [if_pos h2]
      simp only [counterInv]
      refine ⟨⟨?_, ?_⟩, ?_, ?_⟩ <;> (dsimp only; omega)
    · rw [if_neg h2]
      simp only [counterInv]
      refine ⟨⟨?_, ?_⟩, ?_, ?_⟩ <;> (dsimp only; omega)

/-- One `advance` call, under any faults, keeps the counter invariants of the
stored task and never decreases either counter. -/
theorem advance_counters_step (w : World) (t : BatchTask) (gen : Nat → Str) (f : Faults)
    (now : Nat) (hkv : w.kv = some t) (hinv : counterInv t) :
    ∃ t', (advance w gen f now).world.kv = some t' ∧ counterInv t' ∧
      t.processedCount ≤ t'.processedCount ∧ t.createdCount ≤ t'.createdCount := by
  rcases advance_shapes w t gen f now hkv with
    ⟨h1, _⟩ | ⟨m, h1, _⟩ | ⟨m, h1, _⟩ | ⟨h1, _⟩ | ⟨h1, _, _⟩ | ⟨h1, _, _⟩
  · exact ⟨t, h1, hinv, le_rfl, le_rfl⟩
  · exact ⟨failTask t m now, h1, hinv, le_rfl, le_rfl⟩
  · exact ⟨failTask (procTask t now) m now, h1, hinv, le_rfl, le_rfl⟩
  · exact ⟨procTask t now, h1, hinv, le_rfl, le_rfl⟩
  · obtain ⟨hi, hm1, hm2⟩ := successTask_counters w.emailsTable t gen now hinv
    exact ⟨successTask w.emailsTable t gen now, h1, hi, hm1, hm2⟩
  · obtain ⟨hi, hm1, hm2⟩ :=
      successTask_counters w.emailsTable (procTask t now) gen now hinv
    exact ⟨successTask w.emailsTable (procTask t now) gen now, h1, hi, hm1, hm2⟩

/-- **C2.**  For every task satisfying the counter invariants and any
sequence of advance calls (whatever faults or randomness each carries), the
persisted counters after the sequence satisfy
`0 ≤ processedCount ≤ totalCount` and `createdCount ≤ processedCount`
(`0 ≤` is inherent to the `Nat` embedding, matching counters that start at 0
and only grow), and both counters are monotonically non-decreasing across
calls. -/
theorem C2_counter_invariants (calls : List CallInput) :
    ∀ w t, w.kv = some t → counterInv t →
    ∀ t', (runCalls w calls).1.kv = some t' →
      counterInv t' ∧ t.processedCount ≤ t'.processedCount ∧
      t.createdCount ≤ t'.createdCount := by
  induction calls with
  | nil =>
    intro w t hkv hinv t' hkv'
    have : t' = t := by
      have : w.kv = some t' := hkv'
      rw [hkv] at this
      exact (Option.some_inj.mp this).symm
    subst this
    exact ⟨hinv, le_rfl, le_rfl⟩
  | cons c cs ih =>
    intro w t hkv hinv t' hkv'
    obtain ⟨t₁, hkv₁, hinv₁, hm1, hm2⟩ :=
      advance_counters_step w t c.gen c.faults c.nowMs hkv hinv
    rw [runCalls_cons_world] at hkv'
    obtain ⟨hi, hp, hc⟩ := ih _ t₁ hkv₁ hinv₁ t' hkv'
    exact ⟨hi, le_trans hm1 hp, le_trans hm2 hc⟩

/-- Witness for C2: two fault-free calls (then one with an injected insert
fault) on the freshly created 250-address task. -/
theorem C2_counter_invariants_witness :
    w250.kv = some task250 ∧ counterInv task250 ∧
    ∀ t', (runCalls w250 [⟨genSeq 0, noFaults, 1⟩, ⟨genSeq 100, noFaults, 2⟩,
        ⟨genSeq 200, { failInsertAfterChunks := some (0, "disk full".toList) }, 3⟩]).1.kv
        = some t' →
      counterInv t' ∧ task250.processedCount ≤ t'.processedCount ∧
      task250.createdCount ≤ t'.createdCount :=
  ⟨rfl, ⟨by decide, by decide⟩,
   C2_counter_invariants [⟨genSeq 0, noFaults, 1⟩, ⟨genSeq 100, noFaults, 2⟩,
      ⟨genSeq 200, { failInsertAfterChunks := some (0, "disk full".toList) }, 3⟩]
     w250 task250 rfl ⟨by decide, by decide⟩⟩

/-- The catch handler's task value is failed. -/
theorem failTask_status (t : BatchTask) (m : Str) (now : Nat) :
    (failTask t m now).status = .failed := rfl

/-- The transitioned task value is processing. -/
theorem procTask_status (t : BatchTask) (now : Nat) :
    (procTask t now).status = .processing := rfl

/-- The fault-free update either keeps the task's status or completes it. -/
theorem successTask_status (db : List Email) (t : BatchTask) (gen : Nat → Str) (now : Nat) :
    (successTask db t gen now).status = t.status ∨
    (successTask db t gen now).status = .completed := by
  unfold successTask
  dsimp only
  by_cases h1 : t.totalCount < t.processedCount + (acceptedOf db t gen).length
  · rw [if_pos h1]
    dsimp only
    by_cases h2 : t.totalCount ≤ t.totalCount
    · rw [if_pos h2]
      right
      rfl
    · omega
  · rw [if_neg h1]
    dsimp only
    by_cases h2 : t.totalCount ≤ t.processedCount + (acceptedOf db t gen).length
    · rw [if_pos h2]
      right
      rfl
    · rw [if_neg h2]
      left
      rfl

/-- The status sequence persisted by a single `advance` call follows the
code's transition relation, and the final stored task carries the last
persisted status (the initial one if nothing was written). -/
theorem advance_trace (w : World) (t : BatchTask) (gen : Nat → Str) (f : Faults) (now : Nat)
    (hkv : w.kv = some t) :
    chainOK codeStep (t.status :: (advance w gen f now).writes.map (·.status)) = true ∧
    ∃ t₁, (advance w gen f now).world.kv = some t₁ ∧
      t₁.status = List.foldl (fun _ b => b) t.status
        ((advance w gen f now).writes.map (·.status)) := by
  rcases advance_shapes w t gen f now hkv with
    ⟨h1, h2⟩ | ⟨m, h1, h2⟩ | ⟨m, h1, h2, h3⟩ | ⟨h1, h2, h3⟩ | ⟨h1, h2, h3⟩ | ⟨h1, h2, h3⟩
  · rw [h2]
    exact ⟨rfl, t, h1, rfl⟩
  · rw [h2]
    refine ⟨?_, failTask t m now, h1, rfl⟩
    simp only [List.map_cons, List.map_nil, failTask_status]
    rcases ht : t.status <;> decide
  · rw [h2]
    refine ⟨?_, failTask (procTask t now) m now, h1, rfl⟩
    simp only [List.map_cons, List.map_nil, failTask_status, procTask_status]
    rw [h3]
    decide
  · rw [h2]
    refine ⟨?_, procTask t now, h1, rfl⟩
    simp only [List.map_cons, List.map_nil, procTask_status]
    rw [h3]
    decide
  · rw [h2]
    refine ⟨?_, successTask w.emailsTable t gen now, h1, rfl⟩
    simp only [List.map_cons, List.map_nil]
    rw [h3]
    rcases successTask_status w.emailsTable t gen now with hs | hs
    · rw [hs, h3]
      decide
    · rw [hs]
      decide
  · rw [h2]
    refine ⟨?_, successTask w.emailsTable (procTask t now) gen now, h1, rfl⟩
    simp only [List.map_cons, List.map_nil, procTask_status]
    rw [h3]
    rcases successTask_status w.emailsTable (procTask t now) gen now with hs | hs
    · rw [hs, procTask_status]
      decide
    · rw [hs]
      decide

/-- Chains compose at the last element of the first segment. -/
theorem chainOK_append (step : TaskStatus → TaskStatus → Bool) :
    ∀ (l1 : List TaskStatus) (a : TaskStatus) (l2 : List TaskStatus),
      chainOK step (a :: l1) = true →
      chainOK step (List.foldl (fun _ b => b) a l1 :: l2) = true →
      chainOK step (a :: (l1 ++ l2)) = true := by
  intro l1
  induction l1 with
  | nil =>
    intro a l2 h1 h2
    simpa using h2
  | cons b l1 ih =>
    intro a l2 h1 h2
    have h1' : step a b = true ∧ chainOK step (b :: l1) = true := by
      have h : (step a b && chainOK step (b :: l1)) = true := h1
      exact ⟨(Bool.and_eq_true _ _).mp h |>.1, (Bool.and_eq_true _ _).mp h |>.2⟩
    show (step a b && chainOK step (b :: (l1 ++ l2))) = true
    rw [Bool.and_eq_true]
    exact ⟨h1'.1, ih b l2 h1'.2 (by simpa using h2)⟩

/-- The status trace persisted by any sequence of calls follows the code's
transition relation, with the stored task carrying the last status. -/
theorem runCalls_trace (calls : List CallInput) :
    ∀ w t, w.kv = some t →
      chainOK codeStep (t.status :: ((runCalls w calls).2.map (·.status))) = true ∧
      ∃ t', (runCalls w calls).1.kv = some t' ∧
        t'.status = List.foldl (fun _ b => b) t.status
          ((runCalls w calls).2.map (·.status)) := by
  induction calls with
  | nil =>
    intro w t hkv
    exact ⟨rfl, t, hkv, rfl⟩
  | cons c cs ih =>
    intro w t hkv
    obtain ⟨hchain1, t₁, hkv₁, hst₁⟩ := advance_trace w t c.gen c.faults c.nowMs hkv
    obtain ⟨hchain2, t', hkv', hst'⟩ := ih (advance w c.gen c.faults c.nowMs).world t₁ hkv₁
    have hw : (runCalls w (c :: cs)).2
        = (advance w c.gen c.faults c.nowMs).writes
          ++ (runCalls (advance w c.gen c.faults c.nowMs).world cs).2 := rfl
    constructor
    · rw [hw, List.map_append]
      apply chainOK_append codeStep _ _ _ hchain1
      rw [← hst₁]
      exact hchain2
    · refine ⟨t', by rw [runCalls_cons_world]; exact hkv', ?_⟩
      rw [hw, List.map_append, List.foldl_append, ← hst₁]
      exact hst'

/-- **C4 (amended).**  Across any sequence of advance calls, every adjacent
pair in the persisted status sequence is either a self-write or one of
`pending → processing`, `processing → completed`, `processing → failed`, or
one of the two extra catch-handler edges: `pending → failed` when a call
fails before the `pending → processing` state is persisted, and
`completed → failed` when the initial task load throws and the recovery
re-write fires on an already-completed task.  In particular no write ever
leaves the `failed` state, moves `processing` back to `pending`, or jumps
`pending` directly to `completed`. -/
theorem C4_amended_transitions (w : World) (t : BatchTask) (calls : List CallInput)
    (hkv : w.kv = some t) :
    chainOK codeStep (t.status :: ((runCalls w calls).2.map (·.status))) = true :=
  (runCalls_trace calls w t hkv).1

/-- Witness for C4 (amended): a fault-free call followed by a call whose
first KV put throws, on the fresh 250-address task. -/
theorem C4_amended_transitions_witness :
    chainOK codeStep (task250.status :: ((runCalls w250
      [⟨genSeq 0, noFaults, 1⟩,
       ⟨genConst, { failFirstPut := some "kv down".toList }, 2⟩]).2.map (·.status))) = true :=
  C4_amended_transitions w250 task250
    [⟨genSeq 0, noFaults, 1⟩, ⟨genConst, { failFirstPut := some "kv down".toList }, 2⟩] rfl

/-- The data projections of the fault-free task update: `createdCount` grows
by the accepted count, the domain is untouched, and the accepted addresses
are appended to `emailList` (exactly when any were accepted). -/
theorem successTask_projs (db : List Email) (t : BatchTask) (gen : Nat → Str) (now : Nat) :
    (successTask db t gen now).createdCount = t.createdCount + (acceptedOf db t gen).length ∧
    (successTask db t gen now).domain = t.domain ∧
    (successTask db t gen now).emailList
      = (if (acceptedOf db t gen).isEmpty then t.emailList
         else some (t.emailList.getD [] ++ acceptedOf db t gen)) := by
  unfold successTask
  dsimp only
  by_cases h1 : t.totalCount < t.processedCount + (acceptedOf db t gen).length
  · rw [if_pos h1]
    dsimp only
    by_cases h2 : t.totalCount ≤ t.totalCount
    · rw [if_pos h2]
      exact ⟨rfl, rfl, rfl⟩
    · omega
  · rw [if_neg h1]
    dsimp only
    by_cases h2 : t.totalCount ≤ t.processedCount + (acceptedOf db t gen).length
    · rw [if_pos h2]
      exact ⟨rfl, rfl, rfl⟩
    · rw [if_neg h2]
      exact ⟨rfl, rfl, rfl⟩

/-- The fault-free update preserves the `emailList` invariant. -/
theorem successTask_emailList (db : List Email) (t : BatchTask) (gen : Nat → Str) (now : Nat)
    (hinv : emailListInv t) : emailListInv (successTask db t gen now) := by
  obtain ⟨hlen, hsuf⟩ := hinv
  have hforms := (acceptedOf_inv db t gen).2.2.1
  obtain ⟨hcc, hdom, hel⟩ := successTask_projs db t gen now
  unfold emailListInv
  rw [hcc, hdom, hel]
  by_cases he : (acceptedOf db t gen).isEmpty
  · rw [if_pos he]
    have : acceptedOf db t gen = [] := List.isEmpty_iff.mp he
    rw [this]
    exact ⟨by simpa using hlen, hsuf⟩
  · rw [if_neg he]
    constructor
    · simp [hlen]
    · intro a ha
      rcases List.mem_append.mp (by simpa using ha) with ha | ha
      · exact hsuf a ha
      · obtain ⟨j, hj⟩ := hforms a ha
        exact ⟨gen j, hj⟩

/-- One `advance` call, under any faults, preserves the `emailList`
invariant of the stored task. -/
theorem advance_emailList_step (w : World) (t : BatchTask) (gen : Nat → Str) (f : Faults)
    (now : Nat) (hkv : w.kv = some t) (hinv : emailListInv t) :
    ∃ t', (advance w gen f now).world.kv = some t' ∧ emailListInv t' := by
  rcases advance_shapes w t gen f now hkv with
    ⟨h1, _⟩ | ⟨m, h1, _⟩ | ⟨m, h1, _⟩ | ⟨h1, _⟩ | ⟨h1, _, _⟩ | ⟨h1, _, _⟩
  · exact ⟨t, h1, hinv⟩
  · exact ⟨failTask t m now, h1, hinv⟩
  · exact ⟨failTask (procTask t now) m now, h1, hinv⟩
  · exact ⟨procTask t now, h1, hinv⟩
  · exact ⟨successTask w.emailsTable t gen now, h1,
      successTask_emailList w.emailsTable t gen now hinv⟩
  · exact ⟨successTask w.emailsTable (procTask t now) gen now, h1,
      successTask_emailList w.emailsTable (procTask t now) gen now hinv⟩

/-- Any call sequence preserves the `emailList` invariant. -/
theorem runCalls_emailList (calls : List CallInput) :
    ∀ w t, w.kv = some t → emailListInv t →
    ∀ t', (runCalls w calls).1.kv = some t' → emailListInv t' := by
  induction calls with
  | nil =>
    intro w t hkv hinv t' hkv'
    have : w.kv = some t' := hkv'
    rw [hkv] at this
    rwa [← Option.some_inj.mp this]
  | cons c cs ih =>
    intro w t hkv hinv t' hkv'
    obtain ⟨t₁, hkv₁, hinv₁⟩ := advance_emailList_step w t c.gen c.faults c.nowMs hkv hinv
    rw [runCalls_cons_world] at hkv'
    exact ih _ t₁ hkv₁ hinv₁ t' hkv'

/-- **C8.**  `downloadAddresses` for a completed task whose ephemeral record
still exists returns the stored address list joined by newlines — under the
`emailList` invariant (preserved by every call sequence, third conjunct)
exactly `createdCount` entries, each of the form `<local>@<task.domain>`.
Once the ephemeral copy has expired it reconstructs the list from the
permanent address table (owner and creation-time filter, first
`2 × totalCount` rows, domain-suffix filter, truncated to `createdCount`),
and it rejects with 403 when the task is not the caller's and with 400 when
it is not yet completed, on both paths. -/
theorem C8_download_semantics (w : World) (uid : Str) :
    (∀ t l, w.kv = some t → t.userId = uid → t.status = .completed →
      t.emailList = some l → l ≠ [] →
      downloadGET (some uid) w = .file (List.intercalate ['\n'] l) ∧
      (emailListInv t → l.length = t.createdCount ∧
        ∀ a ∈ l, ∃ lp, a = lp ++ '@' :: t.domain)) ∧
    (∀ calls w₀ t₀ t', w₀.kv = some t₀ → emailListInv t₀ →
      (runCalls w₀ calls).1.kv = some t' → emailListInv t') ∧
    (∀ r, w.kv = none → w.record = some r → r.userId = uid → r.status = .completed →
      reconstructList w uid r ≠ [] →
      downloadGET (some uid) w
        = .file (List.intercalate ['\n'] (reconstructList w uid r))) ∧
    (∀ t, w.kv = some t → t.userId ≠ uid → downloadGET (some uid) w = .forbidden) ∧
    (∀ t, w.kv = some t → t.userId = uid → t.status ≠ .completed →
      downloadGET (some uid) w = .notCompleted) ∧
    (∀ r, w.kv = none → w.record = some r → r.userId ≠ uid →
      downloadGET (some uid) w = .forbidden) ∧
    (∀ r, w.kv = none → w.record = some r → r.userId = uid → r.status ≠ .completed →
      downloadGET (some uid) w = .notCompleted) := by
  refine ⟨?_, fun calls w₀ t₀ t' h1 h2 h3 => runCalls_emailList calls w₀ t₀ h1 h2 t' h3,
    ?_, ?_, ?_, ?_, ?_⟩
  · intro t l hkv hown hst hel hne
    constructor
    · unfold downloadGET
      rw [hkv]
      dsimp only
      rw [if_neg (not_not_intro hown), if_neg (not_not_intro hst), hel]
      simp only [Option.getD_some]
      rw [if_neg (by simpa [List.isEmpty_iff] using hne)]
    · intro hinv
      obtain ⟨hlen, hsuf⟩ := hinv
      rw [hel] at hlen hsuf
      exact ⟨hlen, hsuf⟩
  · intro r hkv hrec hown hst hne
    unfold downloadGET
    rw [hkv, hrec]
    dsimp only
    rw [if_neg (not_not_intro hown), if_neg (not_not_intro hst)]
    rw [if_neg (by simpa [List.isEmpty_iff] using hne)]
  · intro t hkv hne
    unfold downloadGET
    rw [hkv]
    dsimp only
    rw [if_pos hne]
  · intro t hkv hown hst
    unfold downloadGET
    rw [hkv]
    dsimp only
    rw [if_neg (not_not_intro hown), if_pos hst]
  · intro r hkv hrec hne
    unfold downloadGET
    rw [hkv, hrec]
    dsimp only
    rw [if_pos hne]
  · intro r hkv hrec hown hst
    unfold downloadGET
    rw [hkv, hrec]
    dsimp only
    rw [if_neg (not_not_intro hown), if_pos hst]

/-- Witness for C8 at the completed `taskDone` (3 created addresses on
domain `d`, owned by `aliceId`). -/
theorem C8_download_semantics_witness :
    downloadGET (some aliceId) wDone
      = .file (List.intercalate ['\n']
          [['a', '@', 'd'], ['b', '@', 'd'], ['c', '@', 'd']]) ∧
    (emailListInv taskDone →
      ([['a', '@', 'd'], ['b', '@', 'd'], ['c', '@', 'd']] : List Str).length
          = taskDone.createdCount ∧
      ∀ a ∈ ([['a', '@', 'd'], ['b', '@', 'd'], ['c', '@', 'd']] : List Str),
        ∃ lp, a = lp ++ '@' :: taskDone.domain) :=
  (C8_download_semantics wDone aliceId).1 taskDone
    [['a', '@', 'd'], ['b', '@', 'd'], ['c', '@', 'd']] rfl rfl rfl rfl (by decide)

/-- **C7.**  If an unrecoverable error occurs during generation (a candidate
store lookup throws) or persistence (the insert throws) inside an advance
call that loaded an in-flight processing task, the task is transitioned to failed with
the captured error message (the insert message wrapped with the
`邮箱插入失败: ` prefix) and written to both the ephemeral store and the
permanent record; each recovery write is best-effort — if it throws, the
failure is only logged and nothing further is written — and the triggering
call returns 500 to its immediate caller in every case. -/
theorem C7_failure_semantics (w : World) (t : BatchTask) (gen : Nat → Str) (f : Faults)
    (now : Nat) (m : Str) (k : Nat) (hload : f.failLoad = none)
    (hkv : w.kv = some t) (hst : t.status = .processing)
    (hlt : t.processedCount < t.totalCount) :
    (f.failGenQuery = some m → f.failRecoveryPut = false →
      (advance w gen f now).res = .serverError ∧
      (advance w gen f now).world.kv = some (failTask t m now) ∧
      (f.failRecoveryRecord = false →
        (advance w gen f now).world.record
          = some (upsertFailedRecord w.record (failTask t m now) now)) ∧
      (f.failRecoveryRecord = true →
        (advance w gen f now).world.record = w.record)) ∧
    (f.failGenQuery = some m → f.failRecoveryPut = true →
      (advance w gen f now).res = .serverError ∧ (advance w gen f now).world = w) ∧
    (f.failGenQuery = none → f.failInsertAfterChunks = some (k, m) →
      acceptedOf w.emailsTable t gen ≠ [] → f.failRecoveryPut = false →
      (advance w gen f now).res = .serverError ∧
      (advance w gen f now).world.kv = some (failTask t (insertFailPrefix ++ m) now) ∧
      (f.failRecoveryRecord = false →
        (advance w gen f now).world.record
          = some (upsertFailedRecord w.record (failTask t (insertFailPrefix ++ m) now) now))) ∧
    (f.failGenQuery = none → f.failInsertAfterChunks = some (k, m) →
      acceptedOf w.emailsTable t gen ≠ [] → f.failRecoveryPut = true →
      (advance w gen f now).res = .serverError ∧
      (advance w gen f now).world.kv = w.kv ∧
      (advance w gen f now).world.record = w.record) := by
  refine ⟨?_, ?_, ?_, ?_⟩
  · intro hgq hrp
    rw [advance_processing w t gen f now hload hkv hst hlt,
        advanceBody_genFail w t gen f now [] m hgq,
        recover_ok w t m f now hkv hrp]
    refine ⟨rfl, rfl, ?_, ?_⟩
    · intro hrr
      show (if f.failRecoveryRecord = true then w.record
            else some (upsertFailedRecord w.record (failTask t m now) now))
          = some (upsertFailedRecord w.record (failTask t m now) now)
      rw [if_neg (by simp [hrr])]
    · intro hrr
      show (if f.failRecoveryRecord = true then w.record
            else some (upsertFailedRecord w.record (failTask t m now) now)) = w.record
      rw [if_pos hrr]
  · intro hgq hrp
    rw [advance_processing w t gen f now hload hkv hst hlt,
        advanceBody_genFail w t gen f now [] m hgq,
        recover_putFail w t m f now hkv hrp]
    exact ⟨rfl, rfl⟩
  · intro hgq hins hacc hrp
    have hrows : ¬ ((acceptedOf w.emailsTable t gen).map (mkRow t now)).isEmpty = true := by
      simp only [List.isEmpty_iff, List.map_eq_nil_iff]
      exact hacc
    have herr : insertPhase w.emailsTable
        ((acceptedOf w.emailsTable t gen).map (mkRow t now)) f
        = .err (w.emailsTable
            ++ ((chunks20 ((acceptedOf w.emailsTable t gen).map (mkRow t now))).take k).flatten)
          (insertFailPrefix ++ m) := by
      unfold insertPhase
      rw [if_neg hrows, hins]
    rw [advance_processing w t gen f now hload hkv hst hlt,
        advanceBody_insErr w t gen f now [] _ _ hgq herr,
        recover_ok _ t (insertFailPrefix ++ m) f now (by simpa using hkv) hrp]
    refine ⟨rfl, rfl, ?_⟩
    intro hrr
    show (if f.failRecoveryRecord = true then w.record
          else some (upsertFailedRecord w.record (failTask t (insertFailPrefix ++ m) now) now))
        = some (upsertFailedRecord w.record (failTask t (insertFailPrefix ++ m) now) now)
    rw [if_neg (by simp [hrr])]
  · intro hgq hins hacc hrp
    have hrows : ¬ ((acceptedOf w.emailsTable t gen).map (mkRow t now)).isEmpty = true := by
      simp only [List.isEmpty_iff, List.map_eq_nil_iff]
      exact hacc
    have herr : insertPhase w.emailsTable
        ((acceptedOf w.emailsTable t gen).map (mkRow t now)) f
        = .err (w.emailsTable
            ++ ((chunks20 ((acceptedOf w.emailsTable t gen).map (mkRow t now))).take k).flatten)
          (insertFailPrefix ++ m) := by
      unfold insertPhase
      rw [if_neg hrows, hins]
    rw [advance_processing w t gen f now hload hkv hst hlt,
        advanceBody_insErr w t gen f now [] _ _ hgq herr,
        recover_putFail _ t (insertFailPrefix ++ m) f now (by simpa using hkv) hrp]
    exact ⟨rfl, rfl, rfl⟩

/-- Witness for C7: a generation-time lookup failure on the mid-flight task
marks it failed with the captured message in both stores and returns 500. -/
theorem C7_failure_semantics_witness :
    (advance wMid genConst { failGenQuery := some "db read failed".toList } 9).res
      = .serverError ∧
    (advance wMid genConst { failGenQuery := some "db read failed".toList } 9).world.kv
      = some (failTask taskMid "db read failed".toList 9) ∧
    (advance wMid genConst { failGenQuery := some "db read failed".toList } 9).world.record
      = some (upsertFailedRecord wMid.record (failTask taskMid "db read failed".toList 9) 9) := by
  have h := (C7_failure_semantics wMid taskMid genConst
    { failGenQuery := some "db read failed".toList } 9 "db read failed".toList 0
    rfl rfl rfl (by decide)).1
  obtain ⟨h1, h2, h3, _⟩ := h rfl rfl
  exact ⟨h1, h2, h3 rfl⟩

set_option maxRecDepth 200000 in
/-- **C6.**  For a task with `totalCount = 250` and no generation collisions
(the deterministic oracle `genSeq` yields fresh local parts at every draw),
each advance call processes `min(100, totalCount − processedCount)`
addresses: exactly 3 calls reach `completed`, with `processedCount` advancing
100, 200, 250 and final `createdCount = 250`. -/
theorem C6_three_calls_complete :
    min PROCESS_BATCH_SIZE (250 - 0) = 100 ∧
    min PROCESS_BATCH_SIZE (250 - 100) = 100 ∧
    min PROCESS_BATCH_SIZE (250 - 200) = 50 ∧
    (advance w250 (genSeq 0) noFaults 1000).res
      = .success
        { status := .processing, processed := 100, total := 250, created := 100,
          progress := 40, hasMore := some true } ∧
    (advance (advance w250 (genSeq 0) noFaults 1000).world (genSeq 100) noFaults 2000).res
      = .success
        { status := .processing, processed := 200, total := 250, created := 200,
          progress := 80, hasMore := some true } ∧
    (advance (advance (advance w250 (genSeq 0) noFaults 1000).world
        (genSeq 100) noFaults 2000).world (genSeq 200) noFaults 3000).res
      = .success
        { status := .completed, processed := 250, total := 250, created := 250,
          progress := 100, hasMore := some false } ∧
    ((advance (advance (advance w250 (genSeq 0) noFaults 1000).world
        (genSeq 100) noFaults 2000).world (genSeq 200) noFaults 3000).world.kv.map
      (fun t => (t.status, t.processedCount, t.createdCount)))
      = some (.completed, 250, 250) := by
  decide

end Moemail
